import Mathlib

set_option linter.unreachableTactic false
set_option linter.unusedTactic false
set_option linter.unusedVariables false

/-!
Verification development for the web-cli repository: a shallow embedding of
the in-memory filesystem and command interpreter implemented in
`src/web-cli/project/src/hooks/useFileSystem.ts` (types in
`src/web-cli/src/types/filesystem.ts`), together with theorems settling the
specification claims.

Modelling conventions:
* JavaScript objects used as string-keyed records (`Record<string, FileSystemItem>`)
  are modelled as association lists that preserve insertion order (JS objects
  enumerate string keys in insertion order); assigning to an existing key keeps
  its position, assigning a fresh key appends, `delete` removes the entry.
* `Date` values are modelled as `Nat` millisecond timestamps.  Each execution
  of a command reads the clock once (`now`); the source calls `new Date()`
  possibly several times within one handler, always within the same instant at
  the modelled granularity.  The locale-dependent renderings
  (`toLocaleDateString`, `toLocaleString`, `toISOString`) are modelled as
  abstract injective renderings of the timestamp.
* The deep copy `JSON.parse(JSON.stringify(prev))` is the identity in a value
  model.  (It turns `Date`s into ISO strings; the only later consumer re-parses
  them with `new Date(...)`, so this is observationally the identity.)
* A JavaScript `TypeError` crash (reading a property of `undefined` while the
  mutation step walks `currentPath`) is modelled by returning `none`:
  `executeCommand` returns `Option (CommandResult × FS)`.
-/

namespace WebCli

/-- The `type` field of `FileSystemItem`: `'file' | 'directory'`. -/
inductive ItemType : Type where
  | file : ItemType
  | directory : ItemType
deriving DecidableEq, Repr

/-- `FileSystemItem`: `name`, `type`, optional `content`, optional `children`
record (modelled as an insertion-ordered association list), and the
`created`/`modified` timestamps. -/
inductive Item : Type where
  | mk (name : String) (type : ItemType) (content : Option String)
       (children : Option (List (String × Item)))
       (created : Nat) (modified : Nat) : Item

def Item.name : Item → String
  | .mk n _ _ _ _ _ => n

def Item.type : Item → ItemType
  | .mk _ t _ _ _ _ => t

def Item.content : Item → Option String
  | .mk _ _ c _ _ _ => c

def Item.children : Item → Option (List (String × Item))
  | .mk _ _ _ ch _ _ => ch

def Item.created : Item → Nat
  | .mk _ _ _ _ cr _ => cr

def Item.modified : Item → Nat
  | .mk _ _ _ _ _ md => md

/-- Replace the `name` field (used by the `mv`/`cp` spread `{ ...item, name: dest }`). -/
def Item.withName : Item → String → Item
  | .mk _ t c ch cr md, n => .mk n t c ch cr md

/-- Replace the `modified` field. -/
def Item.withModified : Item → Nat → Item
  | .mk n t c ch cr _, md => .mk n t c ch cr md

/-- Replace the `children` field and the `modified` field together (the shape of
every in-place mutation the handlers perform on the current directory node). -/
def Item.withChildrenModified : Item → List (String × Item) → Nat → Item
  | .mk n t c _ cr _, m, md => .mk n t c (some m) cr md

@[simp] theorem Item.name_mk (n : String) (ty : ItemType) (c : Option String)
    (ch : Option (List (String × Item))) (cr md : Nat) :
    (Item.mk n ty c ch cr md).name = n := rfl

@[simp] theorem Item.type_mk (n : String) (ty : ItemType) (c : Option String)
    (ch : Option (List (String × Item))) (cr md : Nat) :
    (Item.mk n ty c ch cr md).type = ty := rfl

@[simp] theorem Item.content_mk (n : String) (ty : ItemType) (c : Option String)
    (ch : Option (List (String × Item))) (cr md : Nat) :
    (Item.mk n ty c ch cr md).content = c := rfl

@[simp] theorem Item.children_mk (n : String) (ty : ItemType) (c : Option String)
    (ch : Option (List (String × Item))) (cr md : Nat) :
    (Item.mk n ty c ch cr md).children = ch := rfl

@[simp] theorem Item.created_mk (n : String) (ty : ItemType) (c : Option String)
    (ch : Option (List (String × Item))) (cr md : Nat) :
    (Item.mk n ty c ch cr md).created = cr := rfl

@[simp] theorem Item.modified_mk (n : String) (ty : ItemType) (c : Option String)
    (ch : Option (List (String × Item))) (cr md : Nat) :
    (Item.mk n ty c ch cr md).modified = md := rfl

/-- The `FileSystem` aggregate: root node plus current path. -/
structure FS : Type where
  root : Item
  currentPath : List String

/-- `CommandResult`: output text plus error flag (`error?: boolean`; an absent
field is falsy in every use, so it is modelled as `false`). -/
structure CommandResult : Type where
  output : String
  error : Bool
deriving DecidableEq, Repr

/-! ### Association-list operations with JavaScript object semantics -/

/-- `m[key]` lookup. -/
def lookupEntry : List (String × Item) → String → Option Item
  | [], _ => none
  | (k, v) :: rest, key => if k = key then some v else lookupEntry rest key

/-- `m[key] = v`: overwrite in place if the key exists, append otherwise. -/
def setEntry : List (String × Item) → String → Item → List (String × Item)
  | [], key, v => [(key, v)]
  | (k, w) :: rest, key, v =>
      if k = key then (k, v) :: rest else (k, w) :: setEntry rest key v

/-- `delete m[key]`. -/
def eraseEntry : List (String × Item) → String → List (String × Item)
  | [], _ => []
  | (k, w) :: rest, key => if k = key then rest else (k, w) :: eraseEntry rest key

/-! ### String helpers (modelled on `List Char` so that everything reduces) -/

/-- Split a character list at every character satisfying `p`, keeping empty
pieces (the semantics of JS `String.prototype.split` with a single-character
or single-class separator). -/
def splitOnP (p : Char → Bool) : List Char → List (List Char)
  | [] => [[]]
  | c :: rest =>
      let r := splitOnP p rest
      if p c then [] :: r
      else
        match r with
        | [] => [[c]]
        | h :: t => (c :: h) :: t

/-- JS `str.split('/')` followed by `.filter(Boolean)`: the non-empty segments. -/
def pathSegments (s : String) : List String :=
  ((splitOnP (fun c => c = '/') s.data).map String.mk).filter (fun x => x ≠ "")

/-- Does the string start with `'/'`? (JS `inputPath.startsWith('/')`.) -/
def startsWithSlash (s : String) : Bool :=
  match s.data with
  | c :: _ => c = '/'
  | [] => false

/-- Whitespace test for `trim` / `split(/\s+/)` (ASCII whitespace). -/
def isWsChar (c : Char) : Bool :=
  c = ' ' || c = '\t' || c = '\n' || c = '\r'

/-- JS `input.trim()`. -/
def trimChars (l : List Char) : List Char :=
  ((l.dropWhile isWsChar).reverse.dropWhile isWsChar).reverse

/-- JS `input.trim().split(/\s+/)`: on the empty trimmed string the JS split
yields `[""]`; otherwise it yields the maximal non-whitespace runs. -/
def tokenize (input : String) : List String :=
  let t := trimChars input.data
  if t = [] then [""]
  else ((splitOnP isWsChar t).map String.mk).filter (fun x => x ≠ "")

/-- Join a list of strings with a separator (JS `Array.prototype.join`). -/
def joinWith (sep : String) : List String → String
  | [] => ""
  | [x] => x
  | x :: y :: rest => x ++ sep ++ joinWith sep (y :: rest)

/-- JS `String.prototype.includes` (substring containment). -/
def containsSubChars (pat : List Char) : List Char → Bool
  | [] => pat.isEmpty
  | c :: rest => pat.isPrefixOf (c :: rest) || containsSubChars pat rest

def containsSub (hay pat : String) : Bool :=
  containsSubChars pat.data hay.data

/-- String prefix test (for the `/^https?:\/\//` scheme check). -/
def startsWithStr (s pat : String) : Bool :=
  pat.data.isPrefixOf s.data

/-- JS `num.toString().padStart(8)`. -/
def padStart8 (s : String) : String :=
  String.mk (List.replicate (8 - s.length) ' ') ++ s

/-! ### Locale-dependent built-ins, modelled abstractly -/

/-- Models `Date.prototype.toLocaleDateString` as an abstract injective
rendering of the millisecond timestamp (the exact text is locale-dependent). -/
def toLocaleDateString (t : Nat) : String :=
  "date-" ++ Nat.repr t

/-- Models `Date.prototype.toLocaleString`, likewise abstractly. -/
def toLocaleString (t : Nat) : String :=
  "datetime-" ++ Nat.repr t

/-- Models `Date.prototype.toISOString`, likewise as an injective rendering. -/
def toISOString (t : Nat) : String :=
  "iso-" ++ Nat.repr t

/-- Fold an ASCII uppercase letter to lowercase (primary collation level). -/
def foldChar (c : Char) : Char :=
  if c.isUpper then c.toLower else c

/-- Three-way comparison of characters by code point. -/
def cmpChar (a b : Char) : Int :=
  if a.toNat < b.toNat then -1 else if b.toNat < a.toNat then 1 else 0

/-- Primary-level comparison: lexicographic on case-folded characters. -/
def cmpPrimary : List Char → List Char → Int
  | [], [] => 0
  | [], _ :: _ => -1
  | _ :: _, [] => 1
  | a :: as, b :: bs =>
      let c := cmpChar (foldChar a) (foldChar b)
      if c = 0 then cmpPrimary as bs else c

/-- Case-level key of a character: lowercase (and non-letters) before uppercase. -/
def caseKey (c : Char) : Nat :=
  if c.isUpper then 1 else 0

/-- Tertiary-level comparison: lexicographic on case keys. -/
def cmpCase : List Char → List Char → Int
  | [], [] => 0
  | [], _ :: _ => -1
  | _ :: _, [] => 1
  | a :: as, b :: bs =>
      let c : Int := (caseKey a : Int) - (caseKey b : Int)
      if c = 0 then cmpCase as bs else c

/-- Models the JavaScript built-in `String.prototype.localeCompare` under the
default (root) locale, restricted to ASCII: strings compare case-insensitively
at the primary level (uppercase folded to lowercase, so that for example
`"a"` sorts before `"B"`), and equal primary keys are tie-broken with
lowercase before uppercase at the first differing position. -/
def localeCompare (a b : String) : Int :=
  let p := cmpPrimary a.data b.data
  if p = 0 then cmpCase a.data b.data else p

/-! ### Tree lookups and mutation (`getItemAtPath`, `getCurrentDirectory`,
and the copy-and-mutate walk each mutating handler performs) -/

/-- `getItemAtPath`: walk from a node following `children[segment]`; `none`
when a segment is missing or an intermediate node has no `children`. -/
def getItemAtPath : Item → List String → Option Item
  | cur, [] => some cur
  | cur, s :: rest =>
      match cur.children with
      | none => none
      | some m =>
          match lookupEntry m s with
          | none => none
          | some c => getItemAtPath c rest

/-- `getCurrentDirectory`: the node at `currentPath`, falling back to `root`
when the walk fails (the source returns `fileSystem.root` on first failure,
which yields the same value). -/
def getCurrentDirectory (fs : FS) : Item :=
  (getItemAtPath fs.root fs.currentPath).getD fs.root

/-- `resolvePath`: absolute inputs are split on `/` with empty segments
discarded and returned as-is; relative inputs are applied segment-by-segment
to a copy of the current path (`..` pops when non-empty, `.` is skipped,
anything else is appended). -/
def resolvePath (cur : List String) (inputPath : String) : List String :=
  if startsWithSlash inputPath then
    pathSegments inputPath
  else
    (pathSegments inputPath).foldl
      (fun acc s =>
        if s = ".." then acc.dropLast
        else if s = "." then acc
        else acc ++ [s])
      cur

/-- The mutation walk of the `setFileSystem` updaters: on a (deep copy of the)
tree, follow `current = current.children[segment]` along `currentPath` and
apply the in-place mutator at the final node, rebuilding the spine.  Any
missing segment — or a mutator step that would read `children` of a node that
has none — is a JS `TypeError` in the source, modelled as `none`. -/
def modifyAt : Item → List String → (Item → Option Item) → Option Item
  | cur, [], f => f cur
  | cur, s :: rest, f =>
      match cur.children with
      | none => none
      | some m =>
          match lookupEntry m s with
          | none => none
          | some c =>
              match modifyAt c rest f with
              | none => none
              | some c' => some (cur.withChildrenModified (setEntry m s c') cur.modified)

/-! Spine nodes keep their own `modified` value: `withChildrenModified` above
is passed `cur.modified` back unchanged, so only the final node's mutator
touches timestamps (the source mutates the copy in place, leaving ancestors'
fields alone). -/

/-! ### The per-command in-place mutators -/

/-- `mkdir` mutator: insert a fresh empty directory child and stamp the
parent's `modified`. -/
def mkdirMut (name : String) (now : Nat) (it : Item) : Option Item :=
  match it.children with
  | none => none
  | some m =>
      some (it.withChildrenModified
        (setEntry m name (Item.mk name .directory none (some []) now now)) now)

/-- `touch` mutator: update the child's `modified` when it exists, else insert
an empty file; stamp the parent's `modified` either way. -/
def touchMut (name : String) (now : Nat) (it : Item) : Option Item :=
  match it.children with
  | none => none
  | some m =>
      match lookupEntry m name with
      | some c => some (it.withChildrenModified (setEntry m name (c.withModified now)) now)
      | none =>
          some (it.withChildrenModified
            (setEntry m name (Item.mk name .file (some "") none now now)) now)

/-- `rm`/`rmdir` mutator: delete the child and stamp the parent's `modified`. -/
def delMut (name : String) (now : Nat) (it : Item) : Option Item :=
  match it.children with
  | none => none
  | some m => some (it.withChildrenModified (eraseEntry m name) now)

/-- `mv` mutator: `children[dest] = { ...children[src], name: dest }` then
`delete children[src]`, stamping the parent's `modified`.  The handler has
already validated that `src` exists in the current directory of the very same
state, so the `none` branch on the lookup is unreachable. -/
def mvMut (src dest : String) (now : Nat) (it : Item) : Option Item :=
  match it.children with
  | none => none
  | some m =>
      match lookupEntry m src with
      | none => none
      | some s =>
          some (it.withChildrenModified (eraseEntry (setEntry m dest (s.withName dest)) src) now)

/-- `cp` mutator: `children[dest] = { ...children[src], name: dest, created: now,
modified: now }`, stamping the parent's `modified`. -/
def cpMut (src dest : String) (now : Nat) (it : Item) : Option Item :=
  match it.children with
  | none => none
  | some m =>
      match lookupEntry m src with
      | none => none
      | some s =>
          some (it.withChildrenModified
            (setEntry m dest (Item.mk dest s.type s.content s.children now now)) now)

/-! ### The `ls` listing -/

/-- The `ls` comparator: directories before files, then `localeCompare` on
names. -/
def cmpItems (a b : Item) : Int :=
  if a.type ≠ b.type then (if a.type = .directory then -1 else 1)
  else localeCompare a.name b.name

def itemLe (a b : Item) : Bool :=
  cmpItems a b ≤ 0

/-- Stable insertion of `x` in front of the first element not strictly below
it.  Combined with `sortStable` this computes the unique stable sort, which is
what `Array.prototype.sort` produces for a consistent comparator (ECMAScript
requires the sort to be stable). -/
def insertStable (le : Item → Item → Bool) (x : Item) : List Item → List Item
  | [] => [x]
  | y :: ys => if le x y then x :: y :: ys else y :: insertStable le x ys

def sortStable (le : Item → Item → Bool) : List Item → List Item
  | [] => []
  | x :: xs => insertStable le x (sortStable le xs)

/-- The item sequence `ls` renders for a directory: `Object.values(children)`
in insertion order, invalid (empty-named) items filtered out, sorted with the
directories-first / `localeCompare` comparator. -/
def lsSortedItems (d : Item) : List Item :=
  sortStable itemLe (((d.children.getD []).map Prod.snd).filter (fun it => it.name ≠ ""))

/-- Render one `ls` line. -/
def renderLsItem (it : Item) : String :=
  let kindChar := if it.type = .directory then "d" else "-"
  let size :=
    if it.type = .file then padStart8 (Nat.repr ((it.content.getD "").length))
    else "     dir"
  let date := toLocaleDateString it.modified
  let nm :=
    if it.type = .directory then "\x1b[34m" ++ it.name ++ "/\x1b[0m"
    else it.name
  kindChar ++ "rwxr-xr-x 1 user user " ++ size ++ " " ++ date ++ " " ++ nm

/-! ### Command handlers.  Each takes the clock reading `now`, the state, and
the token list; it returns `none` exactly when the source would throw. -/

def errRes (msg : String) (fs : FS) : Option (CommandResult × FS) :=
  some (CommandResult.mk msg true, fs)

def okRes (out : String) (fs : FS) : Option (CommandResult × FS) :=
  some (CommandResult.mk out false, fs)

/-- `args[1]` coerced through JS truthiness: `undefined` and `""` both fail the
`!args[1]` test and both behave as the empty string afterwards. -/
def argAt (args : List String) (i : Nat) : String :=
  (args[i]?).getD ""

/-- `args[i]` as interpolated into a template literal: `undefined` prints as
the string `"undefined"`. -/
def argDisp (args : List String) (i : Nat) : String :=
  match args[i]? with
  | none => "undefined"
  | some s => s

def helpText : String :=
  "Available commands:\n  mkdir <dirname>    - Create a directory\n  ls [path]          - List directory contents\n  cd <path>          - Change directory\n  rmdir <dirname>    - Remove empty directory\n  rm <filename>      - Remove file\n  touch <filename>   - Create empty file\n  mv <src> <dest>    - Move/rename file or directory\n  cp <src> <dest>    - Copy file or directory\n  curl <url>         - Fetch data from URL (simulated)\n  pwd                - Print working directory\n  cat <filename>     - Display file content\n  clear              - Clear terminal\n  help               - Show this help message"

def cmdLs (fs : FS) (args : List String) : Option (CommandResult × FS) :=
  let a1 := argAt args 1
  let targetPath := if a1 ≠ "" then resolvePath fs.currentPath a1 else fs.currentPath
  match getItemAtPath fs.root targetPath with
  | none =>
      errRes ("ls: cannot access '" ++ argDisp args 1 ++ "': No such file or directory") fs
  | some d =>
      if d.type ≠ .directory then
        errRes ("ls: cannot access '" ++ argDisp args 1 ++ "': Not a directory") fs
      else
        match d.children with
        | none => okRes "" fs
        | some m =>
            if m.length = 0 then okRes "" fs
            else okRes (joinWith "\n" ((lsSortedItems d).map renderLsItem)) fs

def cmdCd (fs : FS) (args : List String) : Option (CommandResult × FS) :=
  let a1 := argAt args 1
  if a1 = "" then okRes "" (FS.mk fs.root ["home", "user"])
  else
    let targetPath := resolvePath fs.currentPath a1
    match getItemAtPath fs.root targetPath with
    | none => errRes ("cd: " ++ a1 ++ ": No such file or directory") fs
    | some d =>
        if d.type ≠ .directory then
          errRes ("cd: " ++ a1 ++ ": Not a directory") fs
        else okRes "" (FS.mk fs.root targetPath)

def cmdMkdir (now : Nat) (fs : FS) (args : List String) : Option (CommandResult × FS) :=
  let a1 := argAt args 1
  if a1 = "" then errRes ("mkdir: missing operand") fs
  else
    match (getCurrentDirectory fs).children with
    | none => errRes ("mkdir: cannot create directory: Permission denied") fs
    | some m =>
        if (lookupEntry m a1).isSome then
          errRes ("mkdir: cannot create directory '" ++ a1 ++ "': File exists") fs
        else
          match modifyAt fs.root fs.currentPath (mkdirMut a1 now) with
          | none => none
          | some r => okRes "" (FS.mk r fs.currentPath)

def cmdTouch (now : Nat) (fs : FS) (args : List String) : Option (CommandResult × FS) :=
  let a1 := argAt args 1
  if a1 = "" then errRes ("touch: missing file operand") fs
  else
    match (getCurrentDirectory fs).children with
    | none => errRes ("touch: cannot create file: Permission denied") fs
    | some _ =>
        match modifyAt fs.root fs.currentPath (touchMut a1 now) with
        | none => none
        | some r => okRes "" (FS.mk r fs.currentPath)

def cmdRm (now : Nat) (fs : FS) (args : List String) : Option (CommandResult × FS) :=
  let a1 := argAt args 1
  if a1 = "" then errRes ("rm: missing operand") fs
  else
    match (getCurrentDirectory fs).children with
    | none => errRes ("rm: cannot remove '" ++ a1 ++ "': No such file or directory") fs
    | some m =>
        match lookupEntry m a1 with
        | none => errRes ("rm: cannot remove '" ++ a1 ++ "': No such file or directory") fs
        | some c =>
            if c.type = .directory then
              errRes ("rm: cannot remove '" ++ a1 ++ "': Is a directory") fs
            else
              match modifyAt fs.root fs.currentPath (delMut a1 now) with
              | none => none
              | some r => okRes "" (FS.mk r fs.currentPath)

def cmdRmdir (now : Nat) (fs : FS) (args : List String) : Option (CommandResult × FS) :=
  let a1 := argAt args 1
  if a1 = "" then errRes ("rmdir: missing operand") fs
  else
    match (getCurrentDirectory fs).children with
    | none => errRes ("rmdir: failed to remove '" ++ a1 ++ "': No such file or directory") fs
    | some m =>
        match lookupEntry m a1 with
        | none => errRes ("rmdir: failed to remove '" ++ a1 ++ "': No such file or directory") fs
        | some c =>
            if c.type ≠ .directory then
              errRes ("rmdir: failed to remove '" ++ a1 ++ "': Not a directory") fs
            else
              match c.children with
              | some m' =>
                  if m'.length > 0 then
                    errRes ("rmdir: failed to remove '" ++ a1 ++ "': Directory not empty") fs
                  else
                    match modifyAt fs.root fs.currentPath (delMut a1 now) with
                    | none => none
                    | some r => okRes "" (FS.mk r fs.currentPath)
              | none =>
                  match modifyAt fs.root fs.currentPath (delMut a1 now) with
                  | none => none
                  | some r => okRes "" (FS.mk r fs.currentPath)

def cmdCat (fs : FS) (args : List String) : Option (CommandResult × FS) :=
  let a1 := argAt args 1
  if a1 = "" then errRes ("cat: missing file operand") fs
  else
    match (getCurrentDirectory fs).children with
    | none => errRes ("cat: " ++ a1 ++ ": No such file or directory") fs
    | some m =>
        match lookupEntry m a1 with
        | none => errRes ("cat: " ++ a1 ++ ": No such file or directory") fs
        | some c =>
            if c.type ≠ .file then errRes ("cat: " ++ a1 ++ ": Is a directory") fs
            else okRes (c.content.getD "") fs

/-- Minimal JSON string escaping for `JSON.stringify` (quote and backslash;
URLs in practice contain no control characters). -/
def jsonEscape : List Char → List Char
  | [] => []
  | c :: rest =>
      if c = '"' ∨ c = '\\' then '\\' :: c :: jsonEscape rest
      else c :: jsonEscape rest

def jsonStr (s : String) : String :=
  "\"" ++ String.mk (jsonEscape s.data) ++ "\""

/-- The `JSON.stringify({...}, null, 2)` payload of the simulated API branch. -/
def curlJson (url : String) (now : Nat) : String :=
  "\x7b\n  \"message\": \"Simulated API response\",\n  \"url\": " ++ jsonStr url
    ++ ",\n  \"timestamp\": " ++ jsonStr (toISOString now)
    ++ ",\n  \"data\": \x7b\n    \"id\": 1,\n    \"name\": \"Sample Data\"\n  \x7d\n\x7d"

/-- The simulated HTML payload. -/
def curlHtml (url : String) (now : Nat) : String :=
  "<!DOCTYPE html>\n<html>\n<head><title>Simulated Response</title></head>\n<body>\n<h1>Web CLI Terminal</h1>\n<p>This is a simulated response for: " ++ url
    ++ "</p>\n<p>Timestamp: " ++ toLocaleString now ++ "</p>\n</body>\n</html>"

def cmdCurl (now : Nat) (fs : FS) (args : List String) : Option (CommandResult × FS) :=
  let url := argAt args 1
  if url = "" then errRes ("curl: no URL specified") fs
  else if ¬ (startsWithStr url "http://" || startsWithStr url "https://") then
    errRes ("curl: (1) Protocol not supported or disabled in libcurl") fs
  else if containsSub url "api" || containsSub url "json" then
    okRes (curlJson url now) fs
  else
    okRes (curlHtml url now) fs

def cmdMv (now : Nat) (fs : FS) (args : List String) : Option (CommandResult × FS) :=
  let a1 := argAt args 1
  let a2 := argAt args 2
  if a1 = "" ∨ a2 = "" then errRes ("mv: missing file operand") fs
  else
    match (getCurrentDirectory fs).children with
    | none => errRes ("mv: cannot stat '" ++ a1 ++ "': No such file or directory") fs
    | some m =>
        match lookupEntry m a1 with
        | none => errRes ("mv: cannot stat '" ++ a1 ++ "': No such file or directory") fs
        | some _ =>
            if (lookupEntry m a2).isSome then
              errRes ("mv: cannot move '" ++ a1 ++ "' to '" ++ a2 ++ "': File exists") fs
            else
              match modifyAt fs.root fs.currentPath (mvMut a1 a2 now) with
              | none => none
              | some r => okRes "" (FS.mk r fs.currentPath)

def cmdCp (now : Nat) (fs : FS) (args : List String) : Option (CommandResult × FS) :=
  let a1 := argAt args 1
  let a2 := argAt args 2
  if a1 = "" ∨ a2 = "" then errRes ("cp: missing file operand") fs
  else
    match (getCurrentDirectory fs).children with
    | none => errRes ("cp: cannot stat '" ++ a1 ++ "': No such file or directory") fs
    | some m =>
        match lookupEntry m a1 with
        | none => errRes ("cp: cannot stat '" ++ a1 ++ "': No such file or directory") fs
        | some s =>
            if (lookupEntry m a2).isSome then
              errRes ("cp: cannot create regular file '" ++ a2 ++ "': File exists") fs
            else if s.type = .directory then
              errRes ("cp: -r not specified; omitting directory '" ++ a1 ++ "'") fs
            else
              match modifyAt fs.root fs.currentPath (cpMut a1 a2 now) with
              | none => none
              | some r => okRes "" (FS.mk r fs.currentPath)

def supportedCommands : List String :=
  ["mkdir", "ls", "cd", "rmdir", "rm", "touch", "mv", "cp", "curl", "pwd", "cat", "help", "clear"]

/-- `executeCommand` on an already-tokenized input line. -/
def execToks (now : Nat) (fs : FS) (args : List String) : Option (CommandResult × FS) :=
  let command := argAt args 0
  if command = "" then okRes "" fs
  else if ¬ supportedCommands.contains command then
    errRes ("Command not recognized: " ++ command) fs
  else if command = "help" then okRes helpText fs
  else if command = "clear" then okRes ("CLEAR_TERMINAL") fs
  else if command = "pwd" then okRes ("/" ++ joinWith "/" fs.currentPath) fs
  else if command = "ls" then cmdLs fs args
  else if command = "cd" then cmdCd fs args
  else if command = "mkdir" then cmdMkdir now fs args
  else if command = "touch" then cmdTouch now fs args
  else if command = "rm" then cmdRm now fs args
  else if command = "rmdir" then cmdRmdir now fs args
  else if command = "cat" then cmdCat fs args
  else if command = "curl" then cmdCurl now fs args
  else if command = "mv" then cmdMv now fs args
  else cmdCp now fs args

/-- The command interpreter: tokenize the line and dispatch.  `now` is the
clock reading for this execution; `none` models an uncaught `TypeError`. -/
def executeCommand (now : Nat) (fs : FS) (input : String) : Option (CommandResult × FS) :=
  execToks now fs (tokenize input)

/-- The seed tree of `createInitialFileSystem`, with creation clock `now`. -/
def createInitialFileSystem (now : Nat) : FS :=
  FS.mk
    (Item.mk "" .directory none
      (some
        [("home",
          Item.mk "home" .directory none
            (some
              [("user",
                Item.mk "user" .directory none
                  (some
                    [("welcome.txt",
                      Item.mk "welcome.txt" .file
                        (some "Welcome to the Web CLI Terminal!\nType \"help\" to see available commands.")
                        none now now),
                     ("documents",
                      Item.mk "documents" .directory none (some []) now now)])
                  now now)])
            now now),
         ("tmp", Item.mk "tmp" .directory none (some []) now now)])
      now now)
    ["home", "user"]

/-- A session: run a list of (clock, line) commands from a state; a crash
aborts the session. -/
def execList (fs : FS) : List (Nat × String) → Option FS
  | [] => some fs
  | (t, l) :: rest =>
      match executeCommand t fs l with
      | none => none
      | some (_, fs') => execList fs' rest

/-! ## Helper lemmas -/

theorem lookup_setEntry_self (m : List (String × Item)) (k : String) (v : Item) :
    lookupEntry (setEntry m k v) k = some v := by
  induction m with
  | nil => simp [setEntry, lookupEntry]
  | cons hd tl ih =>
      obtain ⟨k', w⟩ := hd
      by_cases h : k' = k
      · simp [setEntry, lookupEntry, h]
      · simp [setEntry, lookupEntry, h, ih]

theorem lookup_setEntry_ne (m : List (String × Item)) (k k' : String) (v : Item)
    (h : k' ≠ k) : lookupEntry (setEntry m k v) k' = lookupEntry m k' := by
  have h' : k ≠ k' := Ne.symm h
  induction m with
  | nil => simp [setEntry, lookupEntry, h']
  | cons hd tl ih =>
      obtain ⟨k₀, w⟩ := hd
      by_cases h0 : k₀ = k
      · subst h0
        simp [setEntry, lookupEntry, h']
      · simp only [setEntry, if_neg h0, lookupEntry]
        by_cases h1 : k₀ = k'
        · simp [h1]
        · simp [h1, ih]

theorem lookup_eraseEntry_ne (m : List (String × Item)) (k k' : String)
    (h : k' ≠ k) : lookupEntry (eraseEntry m k) k' = lookupEntry m k' := by
  have h' : k ≠ k' := Ne.symm h
  induction m with
  | nil => simp [eraseEntry, lookupEntry]
  | cons hd tl ih =>
      obtain ⟨k₀, w⟩ := hd
      by_cases h0 : k₀ = k
      · subst h0
        simp [eraseEntry, lookupEntry, h']
      · simp only [eraseEntry, if_neg h0, lookupEntry]
        by_cases h1 : k₀ = k'
        · simp [h1]
        · simp [h1, ih]

theorem lookup_not_mem_keys (m : List (String × Item)) (k : String)
    (h : k ∉ m.map Prod.fst) : lookupEntry m k = none := by
  induction m with
  | nil => simp [lookupEntry]
  | cons hd tl ih =>
      obtain ⟨k₀, w⟩ := hd
      simp only [List.map_cons, List.mem_cons] at h
      push_neg at h
      simp only [lookupEntry, if_neg (Ne.symm h.1)]
      exact ih h.2

theorem lookup_eraseEntry_self (m : List (String × Item)) (k : String)
    (hnd : (m.map Prod.fst).Nodup) :
    lookupEntry (eraseEntry m k) k = none := by
  induction m with
  | nil => simp [eraseEntry, lookupEntry]
  | cons hd tl ih =>
      obtain ⟨k₀, w⟩ := hd
      simp only [List.map_cons, List.nodup_cons] at hnd
      by_cases h0 : k₀ = k
      · subst h0
        simp only [eraseEntry, if_pos rfl]
        exact lookup_not_mem_keys tl k₀ hnd.1
      · simp only [eraseEntry, if_neg h0, lookupEntry, if_neg h0]
        exact ih hnd.2

/-- The first structural fact about the mutation walk: on success, the path
resolved before the walk, the mutator fired at the resolved node, and the
path resolves to the mutated node afterwards. -/
theorem modifyAt_spec (p : List String) :
    ∀ (r r' : Item) (f : Item → Option Item),
      modifyAt r p f = some r' →
      ∃ n n', getItemAtPath r p = some n ∧ f n = some n' ∧ getItemAtPath r' p = some n' := by
  induction p with
  | nil =>
      intro r r' f h
      exact ⟨r, r', rfl, h, rfl⟩
  | cons s rest ih =>
      intro r r' f h
      simp only [modifyAt] at h
      cases hch : r.children with
      | none => simp only [hch] at h; exact Option.noConfusion h
      | some m =>
          simp only [hch] at h
          cases hlk : lookupEntry m s with
          | none => simp only [hlk] at h; exact Option.noConfusion h
          | some c =>
              simp only [hlk] at h
              cases hrec : modifyAt c rest f with
              | none => simp only [hrec] at h; exact Option.noConfusion h
              | some c' =>
                  simp only [hrec] at h
                  obtain ⟨n, n', h1, h2, h3⟩ := ih c c' f hrec
                  refine ⟨n, n', ?_, h2, ?_⟩
                  · simp only [getItemAtPath, hch, hlk, h1]
                  · have hr' : r' = r.withChildrenModified (setEntry m s c') r.modified := by
                      injection h with h'; exact h'.symm
                    subst hr'
                    cases r with
                    | mk nm ty co ch cr md =>
                        simp only [getItemAtPath, Item.withChildrenModified, Item.children,
                          lookup_setEntry_self, h3]

/-- Converse direction: when the path resolves and the mutator succeeds on the
resolved node, the walk succeeds. -/
theorem modifyAt_of_getItemAtPath (p : List String) :
    ∀ (r n n' : Item) (f : Item → Option Item),
      getItemAtPath r p = some n → f n = some n' →
      ∃ r', modifyAt r p f = some r' ∧ getItemAtPath r' p = some n' := by
  induction p with
  | nil =>
      intro r n n' f h hf
      simp only [getItemAtPath] at h
      injection h with h; subst h
      exact ⟨n', by simpa [modifyAt] using hf, rfl⟩
  | cons s rest ih =>
      intro r n n' f h hf
      simp only [getItemAtPath] at h
      cases hch : r.children with
      | none => simp only [hch] at h; exact Option.noConfusion h
      | some m =>
          simp only [hch] at h
          cases hlk : lookupEntry m s with
          | none => simp only [hlk] at h; exact Option.noConfusion h
          | some c =>
              simp only [hlk] at h
              obtain ⟨c', hc1, hc2⟩ := ih c n n' f h hf
              refine ⟨r.withChildrenModified (setEntry m s c') r.modified, ?_, ?_⟩
              · simp only [modifyAt, hch, hlk, hc1]
              · cases r with
                | mk nm ty co ch cr md =>
                    simp only [getItemAtPath, Item.withChildrenModified, Item.children,
                      lookup_setEntry_self, hc2]

/-! ### Error results never change the state (per handler) -/

theorem cmdLs_error_state (fs : FS) (args : List String) (r : CommandResult) (fs' : FS)
    (h : cmdLs fs args = some (r, fs')) (he : r.error = true) : fs' = fs := by
  simp only [cmdLs] at h
  repeat' split at h
  all_goals try exact Option.noConfusion h
  all_goals (
    simp only [errRes, okRes, Option.some.injEq, Prod.mk.injEq] at h
    obtain ⟨hr, hf⟩ := h
    subst hr
    first
      | exact hf.symm
      | simp at he)

theorem cmdCd_error_state (fs : FS) (args : List String) (r : CommandResult) (fs' : FS)
    (h : cmdCd fs args = some (r, fs')) (he : r.error = true) : fs' = fs := by
  simp only [cmdCd] at h
  repeat' split at h
  all_goals try exact Option.noConfusion h
  all_goals (
    simp only [errRes, okRes, Option.some.injEq, Prod.mk.injEq] at h
    obtain ⟨hr, hf⟩ := h
    subst hr
    first
      | exact hf.symm
      | simp at he)

theorem cmdMkdir_error_state (now : Nat) (fs : FS) (args : List String) (r : CommandResult)
    (fs' : FS) (h : cmdMkdir now fs args = some (r, fs')) (he : r.error = true) : fs' = fs := by
  simp only [cmdMkdir] at h
  repeat' split at h
  all_goals try exact Option.noConfusion h
  all_goals (
    simp only [errRes, okRes, Option.some.injEq, Prod.mk.injEq] at h
    obtain ⟨hr, hf⟩ := h
    subst hr
    first
      | exact hf.symm
      | simp at he)

theorem cmdTouch_error_state (now : Nat) (fs : FS) (args : List String) (r : CommandResult)
    (fs' : FS) (h : cmdTouch now fs args = some (r, fs')) (he : r.error = true) : fs' = fs := by
  simp only [cmdTouch] at h
  repeat' split at h
  all_goals try exact Option.noConfusion h
  all_goals (
    simp only [errRes, okRes, Option.some.injEq, Prod.mk.injEq] at h
    obtain ⟨hr, hf⟩ := h
    subst hr
    first
      | exact hf.symm
      | simp at he)

theorem cmdRm_error_state (now : Nat) (fs : FS) (args : List String) (r : CommandResult)
    (fs' : FS) (h : cmdRm now fs args = some (r, fs')) (he : r.error = true) : fs' = fs := by
  simp only [cmdRm] at h
  repeat' split at h
  all_goals try exact Option.noConfusion h
  all_goals (
    simp only [errRes, okRes, Option.some.injEq, Prod.mk.injEq] at h
    obtain ⟨hr, hf⟩ := h
    subst hr
    first
      | exact hf.symm
      | simp at he)

theorem cmdRmdir_error_state (now : Nat) (fs : FS) (args : List String) (r : CommandResult)
    (fs' : FS) (h : cmdRmdir now fs args = some (r, fs')) (he : r.error = true) : fs' = fs := by
  simp only [cmdRmdir] at h
  repeat' split at h
  all_goals try exact Option.noConfusion h
  all_goals (
    simp only [errRes, okRes, Option.some.injEq, Prod.mk.injEq] at h
    obtain ⟨hr, hf⟩ := h
    subst hr
    first
      | exact hf.symm
      | simp at he)

theorem cmdCat_error_state (fs : FS) (args : List String) (r : CommandResult) (fs' : FS)
    (h : cmdCat fs args = some (r, fs')) (he : r.error = true) : fs' = fs := by
  simp only [cmdCat] at h
  repeat' split at h
  all_goals try exact Option.noConfusion h
  all_goals (
    simp only [errRes, okRes, Option.some.injEq, Prod.mk.injEq] at h
    obtain ⟨hr, hf⟩ := h
    subst hr
    first
      | exact hf.symm
      | simp at he)

theorem cmdCurl_error_state (now : Nat) (fs : FS) (args : List String) (r : CommandResult)
    (fs' : FS) (h : cmdCurl now fs args = some (r, fs')) (he : r.error = true) : fs' = fs := by
  simp only [cmdCurl] at h
  repeat' split at h
  all_goals try exact Option.noConfusion h
  all_goals (
    simp only [errRes, okRes, Option.some.injEq, Prod.mk.injEq] at h
    obtain ⟨hr, hf⟩ := h
    subst hr
    first
      | exact hf.symm
      | simp at he)

theorem cmdMv_error_state (now : Nat) (fs : FS) (args : List String) (r : CommandResult)
    (fs' : FS) (h : cmdMv now fs args = some (r, fs')) (he : r.error = true) : fs' = fs := by
  simp only [cmdMv] at h
  repeat' split at h
  all_goals try exact Option.noConfusion h
  all_goals (
    simp only [errRes, okRes, Option.some.injEq, Prod.mk.injEq] at h
    obtain ⟨hr, hf⟩ := h
    subst hr
    first
      | exact hf.symm
      | simp at he)

theorem cmdCp_error_state (now : Nat) (fs : FS) (args : List String) (r : CommandResult)
    (fs' : FS) (h : cmdCp now fs args = some (r, fs')) (he : r.error = true) : fs' = fs := by
  simp only [cmdCp] at h
  repeat' split at h
  all_goals try exact Option.noConfusion h
  all_goals (
    simp only [errRes, okRes, Option.some.injEq, Prod.mk.injEq] at h
    obtain ⟨hr, hf⟩ := h
    subst hr
    first
      | exact hf.symm
      | simp at he)

/-- Claim C1: a result with `error = true` is returned before any mutation
step, so the successor state equals the prior state. -/
theorem execToks_error_state (now : Nat) (fs : FS) (args : List String) (r : CommandResult)
    (fs' : FS) (h : execToks now fs args = some (r, fs')) (he : r.error = true) : fs' = fs := by
  simp only [execToks] at h
  by_cases h0 : argAt args 0 = ""
  · rw [if_pos h0] at h
    simp only [okRes, Option.some.injEq, Prod.mk.injEq] at h
    exact h.2.symm
  rw [if_neg h0] at h
  by_cases h1 : ¬ supportedCommands.contains (argAt args 0) = true
  · rw [if_pos h1] at h
    simp only [errRes, Option.some.injEq, Prod.mk.injEq] at h
    exact h.2.symm
  rw [if_neg h1] at h
  by_cases h2 : argAt args 0 = "help"
  · rw [if_pos h2] at h
    simp only [okRes, Option.some.injEq, Prod.mk.injEq] at h
    exact h.2.symm
  rw [if_neg h2] at h
  by_cases h3 : argAt args 0 = "clear"
  · rw [if_pos h3] at h
    simp only [okRes, Option.some.injEq, Prod.mk.injEq] at h
    exact h.2.symm
  rw [if_neg h3] at h
  by_cases h4 : argAt args 0 = "pwd"
  · rw [if_pos h4] at h
    simp only [okRes, Option.some.injEq, Prod.mk.injEq] at h
    exact h.2.symm
  rw [if_neg h4] at h
  by_cases h5 : argAt args 0 = "ls"
  · rw [if_pos h5] at h
    exact cmdLs_error_state fs args r fs' h he
  rw [if_neg h5] at h
  by_cases h6 : argAt args 0 = "cd"
  · rw [if_pos h6] at h
    exact cmdCd_error_state fs args r fs' h he
  rw [if_neg h6] at h
  by_cases h7 : argAt args 0 = "mkdir"
  · rw [if_pos h7] at h
    exact cmdMkdir_error_state now fs args r fs' h he
  rw [if_neg h7] at h
  by_cases h8 : argAt args 0 = "touch"
  · rw [if_pos h8] at h
    exact cmdTouch_error_state now fs args r fs' h he
  rw [if_neg h8] at h
  by_cases h9 : argAt args 0 = "rm"
  · rw [if_pos h9] at h
    exact cmdRm_error_state now fs args r fs' h he
  rw [if_neg h9] at h
  by_cases h10 : argAt args 0 = "rmdir"
  · rw [if_pos h10] at h
    exact cmdRmdir_error_state now fs args r fs' h he
  rw [if_neg h10] at h
  by_cases h11 : argAt args 0 = "cat"
  · rw [if_pos h11] at h
    exact cmdCat_error_state fs args r fs' h he
  rw [if_neg h11] at h
  by_cases h12 : argAt args 0 = "curl"
  · rw [if_pos h12] at h
    exact cmdCurl_error_state now fs args r fs' h he
  rw [if_neg h12] at h
  by_cases h13 : argAt args 0 = "mv"
  · rw [if_pos h13] at h
    exact cmdMv_error_state now fs args r fs' h he
  rw [if_neg h13] at h
  exact cmdCp_error_state now fs args r fs' h he

/-! ## Claim C1 -/

/-- Claim C1: for every input line, if executing it returns a result with
`error = true`, then the FileSystem state (root tree and `currentPath`) after
the call is identical to the state before the call — every error return in
every handler happens before the copy-and-mutate step. -/
theorem claim1_failing_command_preserves_state (now : Nat) (fs : FS) (input : String)
    (r : CommandResult) (fs' : FS)
    (h : executeCommand now fs input = some (r, fs')) (he : r.error = true) : fs' = fs :=
  execToks_error_state now fs (tokenize input) r fs' h he

/-- Witness for C1: `rm nope` on the seed filesystem fails and the state is
unchanged. -/
theorem claim1_failing_command_preserves_state_witness :
    executeCommand 0 (createInitialFileSystem 0) "rm nope" =
      some (CommandResult.mk "rm: cannot remove 'nope': No such file or directory" true,
        createInitialFileSystem 0) ∧
    (CommandResult.mk "rm: cannot remove 'nope': No such file or directory" true).error = true ∧
    createInitialFileSystem 0 = createInitialFileSystem 0 :=
  ⟨by rfl, by rfl,
    claim1_failing_command_preserves_state 0 (createInitialFileSystem 0) "rm nope"
      (CommandResult.mk "rm: cannot remove 'nope': No such file or directory" true)
      (createInitialFileSystem 0) (by rfl) (by rfl)⟩

/-! ## Claim C2 -/

theorem pathSegments_ne_empty (input : String) :
    ∀ s ∈ pathSegments input, s ≠ "" := by
  intro s hs
  simp only [pathSegments, List.mem_filter] at hs
  simpa using hs.2

/-- Relative resolution preserves cleanliness of the accumulator: `..` only
pops, `.` is dropped, and every appended segment is a non-empty literal that
is neither `.` nor `..`. -/
theorem resolve_fold_clean (segs : List String) :
    ∀ acc : List String,
      (∀ s ∈ acc, s ≠ "." ∧ s ≠ ".." ∧ s ≠ "") →
      (∀ s ∈ segs, s ≠ "") →
      ∀ s ∈ segs.foldl
          (fun acc s =>
            if s = ".." then acc.dropLast
            else if s = "." then acc
            else acc ++ [s]) acc,
        s ≠ "." ∧ s ≠ ".." ∧ s ≠ "" := by
  induction segs with
  | nil => intro acc hacc _ s hs; exact hacc s hs
  | cons sg rest ih =>
      intro acc hacc hsegs
      simp only [List.foldl_cons]
      apply ih
      · intro s hs
        by_cases h1 : sg = ".."
        · rw [if_pos h1] at hs
          exact hacc s ((List.dropLast_sublist acc).subset hs)
        · rw [if_neg h1] at hs
          by_cases h2 : sg = "."
          · rw [if_pos h2] at hs
            exact hacc s hs
          · rw [if_neg h2] at hs
            rcases List.mem_append.1 hs with h | h
            · exact hacc s h
            · have hs' : s = sg := by simpa using h
              rw [hs']
              exact ⟨h2, h1, hsegs sg (List.mem_cons_self sg rest)⟩
      · intro s hs
        exact hsegs s (List.mem_cons_of_mem sg hs)

/-- Claim C2, amended: the resolver never returns empty-string segments (given
a current path free of them), and for *relative* inputs — with a clean current
path — the result also contains no `.` or `..`.  The unrestricted claim fails
for absolute inputs, which keep `.` and `..` verbatim
(see the counterexample). -/
theorem claim2_resolver_segments (cur : List String) (input : String)
    (hcur : ∀ s ∈ cur, s ≠ "." ∧ s ≠ ".." ∧ s ≠ "") :
    (startsWithSlash input = false →
      ∀ s ∈ resolvePath cur input, s ≠ "." ∧ s ≠ ".." ∧ s ≠ "") ∧
    (∀ s ∈ resolvePath cur input, s ≠ "") := by
  constructor
  · intro habs s hs
    rw [resolvePath, habs] at hs
    simp only [Bool.false_eq_true, if_false] at hs
    exact resolve_fold_clean (pathSegments input) cur hcur
      (fun t ht => pathSegments_ne_empty input t ht) s hs
  · intro s hs
    rw [resolvePath] at hs
    by_cases habs : startsWithSlash input = true
    · rw [if_pos habs] at hs
      exact pathSegments_ne_empty input s hs
    · rw [if_neg habs] at hs
      exact (resolve_fold_clean (pathSegments input) cur hcur
        (fun t ht => pathSegments_ne_empty input t ht) s hs).2.2

/-- Witness for C2 (amended): resolving the relative path `"../tmp/./x"` from
`["home","user"]` yields a clean segment list. -/
theorem claim2_resolver_segments_witness :
    (∀ s ∈ (["home", "user"] : List String), s ≠ "." ∧ s ≠ ".." ∧ s ≠ "") ∧
    (startsWithSlash "../tmp/./x" = false →
      ∀ s ∈ resolvePath ["home", "user"] "../tmp/./x", s ≠ "." ∧ s ≠ ".." ∧ s ≠ "") ∧
    (∀ s ∈ resolvePath ["home", "user"] "../tmp/./x", s ≠ "") :=
  ⟨by decide, claim2_resolver_segments ["home", "user"] "../tmp/./x" (by decide)⟩

/-- Counterexample to C2 as stated: the absolute input `"/home/user/../tmp"`
resolves to a list that still contains `".."` — absolute resolution only
discards empty segments and performs no `.`/`..` processing. -/
theorem claim2_counterexample :
    resolvePath ["home", "user"] "/home/user/../tmp" = ["home", "user", "..", "tmp"] ∧
    ".." ∈ resolvePath ["home", "user"] "/home/user/../tmp" := by
  constructor
  · rfl
  · decide

/-! ## Claim C10: tokens beyond those a command consumes are ignored -/

/-- How many argument tokens a command reads (`args[1]`/`args[2]`): two for
`mv`/`cp`, none for `help`/`clear`/`pwd`, one for everything else (including
unrecognized commands, whose error message uses only the command token). -/
def cmdArity (c : String) : Nat :=
  if c = "mv" ∨ c = "cp" then 2
  else if c = "help" ∨ c = "clear" ∨ c = "pwd" then 0
  else 1

theorem cmdLs_congr (fs : FS) (a₁ a₂ : List String) (h : a₂[1]? = a₁[1]?) :
    cmdLs fs a₁ = cmdLs fs a₂ := by
  simp only [cmdLs, argAt, argDisp, h]

theorem cmdCd_congr (fs : FS) (a₁ a₂ : List String) (h : a₂[1]? = a₁[1]?) :
    cmdCd fs a₁ = cmdCd fs a₂ := by
  simp only [cmdCd, argAt, h]

theorem cmdMkdir_congr (now : Nat) (fs : FS) (a₁ a₂ : List String) (h : a₂[1]? = a₁[1]?) :
    cmdMkdir now fs a₁ = cmdMkdir now fs a₂ := by
  simp only [cmdMkdir, argAt, h]

theorem cmdTouch_congr (now : Nat) (fs : FS) (a₁ a₂ : List String) (h : a₂[1]? = a₁[1]?) :
    cmdTouch now fs a₁ = cmdTouch now fs a₂ := by
  simp only [cmdTouch, argAt, h]

theorem cmdRm_congr (now : Nat) (fs : FS) (a₁ a₂ : List String) (h : a₂[1]? = a₁[1]?) :
    cmdRm now fs a₁ = cmdRm now fs a₂ := by
  simp only [cmdRm, argAt, h]

theorem cmdRmdir_congr (now : Nat) (fs : FS) (a₁ a₂ : List String) (h : a₂[1]? = a₁[1]?) :
    cmdRmdir now fs a₁ = cmdRmdir now fs a₂ := by
  simp only [cmdRmdir, argAt, h]

theorem cmdCat_congr (fs : FS) (a₁ a₂ : List String) (h : a₂[1]? = a₁[1]?) :
    cmdCat fs a₁ = cmdCat fs a₂ := by
  simp only [cmdCat, argAt, h]

theorem cmdCurl_congr (now : Nat) (fs : FS) (a₁ a₂ : List String) (h : a₂[1]? = a₁[1]?) :
    cmdCurl now fs a₁ = cmdCurl now fs a₂ := by
  simp only [cmdCurl, argAt, h]

theorem cmdMv_congr (now : Nat) (fs : FS) (a₁ a₂ : List String) (h1 : a₂[1]? = a₁[1]?)
    (h2 : a₂[2]? = a₁[2]?) : cmdMv now fs a₁ = cmdMv now fs a₂ := by
  simp only [cmdMv, argAt, h1, h2]

theorem cmdCp_congr (now : Nat) (fs : FS) (a₁ a₂ : List String) (h1 : a₂[1]? = a₁[1]?)
    (h2 : a₂[2]? = a₁[2]?) : cmdCp now fs a₁ = cmdCp now fs a₂ := by
  simp only [cmdCp, argAt, h1, h2]

/-- Claim C10: whitespace-separated tokens beyond those a command consumes are
ignored — a line whose token list is truncated to the consumed prefix (one
argument for most commands, two for `mv`/`cp`, zero for `help`/`clear`/`pwd`)
executes to exactly the same result and successor state. -/
theorem claim10_extra_tokens_ignored (now : Nat) (fs : FS) (l₁ l₂ : String)
    (h : tokenize l₂ = (tokenize l₁).take (1 + cmdArity (argAt (tokenize l₁) 0))) :
    executeCommand now fs l₁ = executeCommand now fs l₂ := by
  unfold executeCommand
  generalize ht1 : tokenize l₁ = t₁ at h
  generalize ht2 : tokenize l₂ = t₂ at h
  have h0 : t₂[0]? = t₁[0]? := by
    rw [h, List.getElem?_take, if_pos (by omega)]
  have hc : argAt t₂ 0 = argAt t₁ 0 := by
    rw [argAt, argAt, h0]
  have harg1 : cmdArity (argAt t₁ 0) ≥ 1 → t₂[1]? = t₁[1]? := by
    intro ha
    rw [h, List.getElem?_take, if_pos (by omega)]
  have harg2 : cmdArity (argAt t₁ 0) ≥ 2 → t₂[2]? = t₁[2]? := by
    intro ha
    rw [h, List.getElem?_take, if_pos (by omega)]
  simp only [execToks, hc]
  by_cases h0' : argAt t₁ 0 = ""
  · simp only [if_pos h0']
  simp only [if_neg h0']
  by_cases h1' : ¬ supportedCommands.contains (argAt t₁ 0) = true
  · simp only [if_pos h1']
  simp only [if_neg h1']
  by_cases h2' : argAt t₁ 0 = "help"
  · simp only [if_pos h2']
  simp only [if_neg h2']
  by_cases h3' : argAt t₁ 0 = "clear"
  · simp only [if_pos h3']
  simp only [if_neg h3']
  by_cases h4' : argAt t₁ 0 = "pwd"
  · simp only [if_pos h4']
  simp only [if_neg h4']
  by_cases h5' : argAt t₁ 0 = "ls"
  · simp only [if_pos h5']
    exact cmdLs_congr fs t₁ t₂ (harg1 (by rw [h5']; decide))
  simp only [if_neg h5']
  by_cases h6' : argAt t₁ 0 = "cd"
  · simp only [if_pos h6']
    exact cmdCd_congr fs t₁ t₂ (harg1 (by rw [h6']; decide))
  simp only [if_neg h6']
  by_cases h7' : argAt t₁ 0 = "mkdir"
  · simp only [if_pos h7']
    exact cmdMkdir_congr now fs t₁ t₂ (harg1 (by rw [h7']; decide))
  simp only [if_neg h7']
  by_cases h8' : argAt t₁ 0 = "touch"
  · simp only [if_pos h8']
    exact cmdTouch_congr now fs t₁ t₂ (harg1 (by rw [h8']; decide))
  simp only [if_neg h8']
  by_cases h9' : argAt t₁ 0 = "rm"
  · simp only [if_pos h9']
    exact cmdRm_congr now fs t₁ t₂ (harg1 (by rw [h9']; decide))
  simp only [if_neg h9']
  by_cases h10' : argAt t₁ 0 = "rmdir"
  · simp only [if_pos h10']
    exact cmdRmdir_congr now fs t₁ t₂ (harg1 (by rw [h10']; decide))
  simp only [if_neg h10']
  by_cases h11' : argAt t₁ 0 = "cat"
  · simp only [if_pos h11']
    exact cmdCat_congr fs t₁ t₂ (harg1 (by rw [h11']; decide))
  simp only [if_neg h11']
  by_cases h12' : argAt t₁ 0 = "curl"
  · simp only [if_pos h12']
    exact cmdCurl_congr now fs t₁ t₂ (harg1 (by rw [h12']; decide))
  simp only [if_neg h12']
  by_cases h13' : argAt t₁ 0 = "mv"
  · simp only [if_pos h13']
    exact cmdMv_congr now fs t₁ t₂ (harg1 (by rw [h13']; decide))
      (harg2 (by rw [h13']; decide))
  simp only [if_neg h13']
  have hcp : argAt t₁ 0 = "cp" := by
    rw [not_not] at h1'
    have hmem := List.mem_of_elem_eq_true h1'
    simp only [supportedCommands, List.mem_cons, List.not_mem_nil, or_false] at hmem
    rcases hmem with h | h | h | h | h | h | h | h | h | h | h | h | h <;>
      first
        | exact h
        | exact absurd h (by assumption)
  exact cmdCp_congr now fs t₁ t₂ (harg1 (by rw [hcp]; decide))
    (harg2 (by rw [hcp]; decide))

/-- Witness for C10: `rm a b` executes exactly like `rm a`. -/
theorem claim10_extra_tokens_ignored_witness :
    tokenize "rm a" = (tokenize "rm a b").take (1 + cmdArity (argAt (tokenize "rm a b") 0)) ∧
    executeCommand 0 (createInitialFileSystem 0) "rm a b" =
      executeCommand 0 (createInitialFileSystem 0) "rm a" :=
  ⟨by decide,
    claim10_extra_tokens_ignored 0 (createInitialFileSystem 0) "rm a b" "rm a" (by decide)⟩

/-! ## Claim C4: determinism and the hidden clock input -/

theorem mkdirMut_isSome_indep (a : String) (t t' : Nat) (x : Item) :
    (mkdirMut a t x).isSome = (mkdirMut a t' x).isSome := by
  unfold mkdirMut
  cases x.children <;> simp

theorem touchMut_isSome_indep (a : String) (t t' : Nat) (x : Item) :
    (touchMut a t x).isSome = (touchMut a t' x).isSome := by
  unfold touchMut
  cases hch : x.children with
  | none => simp
  | some m =>
      simp only []
      cases hlk : lookupEntry m a <;> simp [hlk]

theorem delMut_isSome_indep (a : String) (t t' : Nat) (x : Item) :
    (delMut a t x).isSome = (delMut a t' x).isSome := by
  unfold delMut
  cases x.children <;> simp

theorem mvMut_isSome_indep (a b : String) (t t' : Nat) (x : Item) :
    (mvMut a b t x).isSome = (mvMut a b t' x).isSome := by
  unfold mvMut
  cases hch : x.children with
  | none => simp
  | some m =>
      simp only []
      cases hlk : lookupEntry m a <;> simp [hlk]

theorem cpMut_isSome_indep (a b : String) (t t' : Nat) (x : Item) :
    (cpMut a b t x).isSome = (cpMut a b t' x).isSome := by
  unfold cpMut
  cases hch : x.children with
  | none => simp
  | some m =>
      simp only []
      cases hlk : lookupEntry m a <;> simp [hlk]

theorem modifyAt_isSome_congr (p : List String) :
    ∀ (r : Item) (f g : Item → Option Item),
      (∀ x, (f x).isSome = (g x).isSome) →
      (modifyAt r p f).isSome = (modifyAt r p g).isSome := by
  induction p with
  | nil => intro r f g hfg; exact hfg r
  | cons s rest ih =>
      intro r f g hfg
      simp only [modifyAt]
      cases hch : r.children with
      | none => simp
      | some m =>
          simp only []
          cases hlk : lookupEntry m s with
          | none => simp [hlk]
          | some c =>
              simp only [hlk]
              have := ih c f g hfg
              cases hf : modifyAt c rest f <;> cases hg : modifyAt c rest g <;>
                simp_all

/-- The observable result of a mutation tail (`none` on crash, empty success
otherwise) depends only on whether the mutation walk succeeds. -/
theorem map_fst_mutTail (o₁ o₂ : Option Item) (cp : List String)
    (h : o₁.isSome = o₂.isSome) :
    Option.map Prod.fst
        (match o₁ with
          | none => (none : Option (CommandResult × FS))
          | some r => okRes "" (FS.mk r cp)) =
      Option.map Prod.fst
        (match o₂ with
          | none => (none : Option (CommandResult × FS))
          | some r => okRes "" (FS.mk r cp)) := by
  cases o₁ <;> cases o₂ <;> simp_all [okRes]

theorem cmdMkdir_result_indep (t t' : Nat) (fs : FS) (args : List String) :
    Option.map Prod.fst (cmdMkdir t fs args) = Option.map Prod.fst (cmdMkdir t' fs args) := by
  simp only [cmdMkdir]
  by_cases h1 : argAt args 1 = ""
  · simp only [if_pos h1]
  · simp only [if_neg h1]
    cases hch : (getCurrentDirectory fs).children with
    | none => simp
    | some m =>
        simp only []
        by_cases h2 : (lookupEntry m (argAt args 1)).isSome = true
        · simp only [if_pos h2]
        · simp only [if_neg h2]
          exact map_fst_mutTail _ _ _
            (modifyAt_isSome_congr fs.currentPath fs.root _ _
              (fun x => mkdirMut_isSome_indep (argAt args 1) t t' x))

theorem cmdTouch_result_indep (t t' : Nat) (fs : FS) (args : List String) :
    Option.map Prod.fst (cmdTouch t fs args) = Option.map Prod.fst (cmdTouch t' fs args) := by
  simp only [cmdTouch]
  by_cases h1 : argAt args 1 = ""
  · simp only [if_pos h1]
  · simp only [if_neg h1]
    cases hch : (getCurrentDirectory fs).children with
    | none => simp
    | some m =>
        simp only []
        exact map_fst_mutTail _ _ _
          (modifyAt_isSome_congr fs.currentPath fs.root _ _
            (fun x => touchMut_isSome_indep (argAt args 1) t t' x))

theorem cmdRm_result_indep (t t' : Nat) (fs : FS) (args : List String) :
    Option.map Prod.fst (cmdRm t fs args) = Option.map Prod.fst (cmdRm t' fs args) := by
  simp only [cmdRm]
  by_cases h1 : argAt args 1 = ""
  · simp only [if_pos h1]
  · simp only [if_neg h1]
    cases hch : (getCurrentDirectory fs).children with
    | none => simp
    | some m =>
        simp only []
        cases hlk : lookupEntry m (argAt args 1) with
        | none => simp
        | some c =>
            simp only []
            by_cases h2 : c.type = ItemType.directory
            · simp only [if_pos h2]
            · simp only [if_neg h2]
              exact map_fst_mutTail _ _ _
                (modifyAt_isSome_congr fs.currentPath fs.root _ _
                  (fun x => delMut_isSome_indep (argAt args 1) t t' x))

theorem cmdRmdir_result_indep (t t' : Nat) (fs : FS) (args : List String) :
    Option.map Prod.fst (cmdRmdir t fs args) = Option.map Prod.fst (cmdRmdir t' fs args) := by
  simp only [cmdRmdir]
  by_cases h1 : argAt args 1 = ""
  · simp only [if_pos h1]
  · simp only [if_neg h1]
    cases hch : (getCurrentDirectory fs).children with
    | none => simp
    | some m =>
        simp only []
        cases hlk : lookupEntry m (argAt args 1) with
        | none => simp
        | some c =>
            simp only []
            by_cases h2 : c.type ≠ ItemType.directory
            · simp only [if_pos h2]
            · simp only [if_neg h2]
              cases hcc : c.children with
              | some m' =>
                  simp only []
                  by_cases h3 : m'.length > 0
                  · simp only [if_pos h3]
                  · simp only [if_neg h3]
                    exact map_fst_mutTail _ _ _
                      (modifyAt_isSome_congr fs.currentPath fs.root _ _
                        (fun x => delMut_isSome_indep (argAt args 1) t t' x))
              | none =>
                  simp only []
                  exact map_fst_mutTail _ _ _
                    (modifyAt_isSome_congr fs.currentPath fs.root _ _
                      (fun x => delMut_isSome_indep (argAt args 1) t t' x))

theorem cmdMv_result_indep (t t' : Nat) (fs : FS) (args : List String) :
    Option.map Prod.fst (cmdMv t fs args) = Option.map Prod.fst (cmdMv t' fs args) := by
  simp only [cmdMv]
  by_cases h1 : argAt args 1 = "" ∨ argAt args 2 = ""
  · simp only [if_pos h1]
  · simp only [if_neg h1]
    cases hch : (getCurrentDirectory fs).children with
    | none => simp
    | some m =>
        simp only []
        cases hlk : lookupEntry m (argAt args 1) with
        | none => simp
        | some c =>
            simp only []
            by_cases h2 : (lookupEntry m (argAt args 2)).isSome = true
            · simp only [if_pos h2]
            · simp only [if_neg h2]
              exact map_fst_mutTail _ _ _
                (modifyAt_isSome_congr fs.currentPath fs.root _ _
                  (fun x => mvMut_isSome_indep (argAt args 1) (argAt args 2) t t' x))

theorem cmdCp_result_indep (t t' : Nat) (fs : FS) (args : List String) :
    Option.map Prod.fst (cmdCp t fs args) = Option.map Prod.fst (cmdCp t' fs args) := by
  simp only [cmdCp]
  by_cases h1 : argAt args 1 = "" ∨ argAt args 2 = ""
  · simp only [if_pos h1]
  · simp only [if_neg h1]
    cases hch : (getCurrentDirectory fs).children with
    | none => simp
    | some m =>
        simp only []
        cases hlk : lookupEntry m (argAt args 1) with
        | none => simp
        | some c =>
            simp only []
            by_cases h2 : (lookupEntry m (argAt args 2)).isSome = true
            · simp only [if_pos h2]
            · simp only [if_neg h2]
              by_cases h3 : c.type = ItemType.directory
              · simp only [if_pos h3]
              · simp only [if_neg h3]
                exact map_fst_mutTail _ _ _
                  (modifyAt_isSome_congr fs.currentPath fs.root _ _
                    (fun x => cpMut_isSome_indep (argAt args 1) (argAt args 2) t t' x))

/-- Claim C4, amended: the interpreter is deterministic once the hidden clock
input is fixed, and for every line whose command token is not `curl` the
returned result (output string and error flag) is independent of the clock
altogether.  As a function of (state, line) alone the claim fails: `curl`
interpolates the clock into its output (see the counterexample), and mutating
commands stamp the clock into the successor state's timestamps. -/
theorem claim4_result_clock_independent (t₁ t₂ : Nat) (fs : FS) (input : String)
    (h : argAt (tokenize input) 0 ≠ "curl") :
    Option.map Prod.fst (executeCommand t₁ fs input) =
      Option.map Prod.fst (executeCommand t₂ fs input) := by
  unfold executeCommand
  generalize ht : tokenize input = args at h
  simp only [execToks]
  by_cases h0' : argAt args 0 = ""
  · simp only [if_pos h0']
  simp only [if_neg h0']
  by_cases h1' : ¬ supportedCommands.contains (argAt args 0) = true
  · simp only [if_pos h1']
  simp only [if_neg h1']
  by_cases h2' : argAt args 0 = "help"
  · simp only [if_pos h2']
  simp only [if_neg h2']
  by_cases h3' : argAt args 0 = "clear"
  · simp only [if_pos h3']
  simp only [if_neg h3']
  by_cases h4' : argAt args 0 = "pwd"
  · simp only [if_pos h4']
  simp only [if_neg h4']
  by_cases h5' : argAt args 0 = "ls"
  · simp only [if_pos h5']
  simp only [if_neg h5']
  by_cases h6' : argAt args 0 = "cd"
  · simp only [if_pos h6']
  simp only [if_neg h6']
  by_cases h7' : argAt args 0 = "mkdir"
  · simp only [if_pos h7']
    exact cmdMkdir_result_indep t₁ t₂ fs args
  simp only [if_neg h7']
  by_cases h8' : argAt args 0 = "touch"
  · simp only [if_pos h8']
    exact cmdTouch_result_indep t₁ t₂ fs args
  simp only [if_neg h8']
  by_cases h9' : argAt args 0 = "rm"
  · simp only [if_pos h9']
    exact cmdRm_result_indep t₁ t₂ fs args
  simp only [if_neg h9']
  by_cases h10' : argAt args 0 = "rmdir"
  · simp only [if_pos h10']
    exact cmdRmdir_result_indep t₁ t₂ fs args
  simp only [if_neg h10']
  by_cases h11' : argAt args 0 = "cat"
  · simp only [if_pos h11']
  simp only [if_neg h11']
  by_cases h12' : argAt args 0 = "curl"
  · exact absurd h12' h
  simp only [if_neg h12']
  by_cases h13' : argAt args 0 = "mv"
  · simp only [if_pos h13']
    exact cmdMv_result_indep t₁ t₂ fs args
  simp only [if_neg h13']
  exact cmdCp_result_indep t₁ t₂ fs args

/-- Witness for C4 (amended): `mkdir x` returns the same result whether the
clock reads 0 or 5. -/
theorem claim4_result_clock_independent_witness :
    argAt (tokenize "mkdir x") 0 ≠ "curl" ∧
    Option.map Prod.fst (executeCommand 0 (createInitialFileSystem 0) "mkdir x") =
      Option.map Prod.fst (executeCommand 5 (createInitialFileSystem 0) "mkdir x") :=
  ⟨by decide,
    claim4_result_clock_independent 0 5 (createInitialFileSystem 0) "mkdir x" (by decide)⟩

set_option maxRecDepth 4096 in
/-- Counterexample to C4 as stated: two executions of the same `curl` line
against the same state — one with the clock at 0, one a minute later — return
different output strings, because the handler interpolates the wall clock into
the simulated response.  The interpreter is therefore not a pure function of
(state, input line) alone. -/
theorem claim4_counterexample :
    Option.map (fun p => p.1.output)
        (executeCommand 0 (createInitialFileSystem 0) "curl http://example.com") ≠
      Option.map (fun p => p.1.output)
        (executeCommand 60000 (createInitialFileSystem 0) "curl http://example.com") := by
  decide

/-! ## Well-formed trees: directories carry a `children` mapping, files do not.
This invariant of every reachable state backs claims C5 and C6. -/

/-- A node is well-formed when directory nodes have a present `children`
mapping (all of whose values are well-formed) and file nodes have none. -/
inductive WF : Item → Prop where
  | dir : ∀ (n : String) (c : Option String) (m : List (String × Item)) (cr md : Nat),
      (∀ kv ∈ m, WF kv.2) → WF (Item.mk n ItemType.directory c (some m) cr md)
  | file : ∀ (n : String) (c : Option String) (cr md : Nat),
      WF (Item.mk n ItemType.file c none cr md)

theorem WF.dir_of_children {x : Item} {m : List (String × Item)}
    (hx : WF x) (hch : x.children = some m) :
    x.type = ItemType.directory ∧ ∀ kv ∈ m, WF kv.2 := by
  cases hx with
  | dir n c m' cr md hm =>
      simp only [Item.children, Option.some.injEq] at hch
      subst hch
      exact ⟨rfl, hm⟩
  | file n c cr md =>
      simp only [Item.children] at hch
      exact Option.noConfusion hch

theorem lookupEntry_mem (m : List (String × Item)) (k : String) (v : Item)
    (h : lookupEntry m k = some v) : (k, v) ∈ m := by
  induction m with
  | nil => simp [lookupEntry] at h
  | cons hd tl ih =>
      obtain ⟨k₀, w⟩ := hd
      simp only [lookupEntry] at h
      by_cases h0 : k₀ = k
      · rw [if_pos h0] at h
        injection h with h
        subst h0; subst h
        exact List.mem_cons_self _ _
      · rw [if_neg h0] at h
        exact List.mem_cons_of_mem _ (ih h)

theorem mem_setEntry (m : List (String × Item)) (k : String) (v : Item) (kv : String × Item)
    (h : kv ∈ setEntry m k v) : kv ∈ m ∨ kv = (k, v) := by
  induction m with
  | nil => simp only [setEntry, List.mem_singleton] at h; exact Or.inr h
  | cons hd tl ih =>
      obtain ⟨k₀, w⟩ := hd
      simp only [setEntry] at h
      by_cases h0 : k₀ = k
      · rw [if_pos h0] at h
        rcases List.mem_cons.1 h with h | h
        · subst h0; exact Or.inr (by rw [h])
        · exact Or.inl (List.mem_cons_of_mem _ h)
      · rw [if_neg h0] at h
        rcases List.mem_cons.1 h with h | h
        · exact Or.inl (by rw [h]; exact List.mem_cons_self _ _)
        · rcases ih h with h | h
          · exact Or.inl (List.mem_cons_of_mem _ h)
          · exact Or.inr h

theorem mem_eraseEntry (m : List (String × Item)) (k : String) (kv : String × Item)
    (h : kv ∈ eraseEntry m k) : kv ∈ m := by
  induction m with
  | nil => simp [eraseEntry] at h
  | cons hd tl ih =>
      obtain ⟨k₀, w⟩ := hd
      simp only [eraseEntry] at h
      by_cases h0 : k₀ = k
      · rw [if_pos h0] at h
        exact List.mem_cons_of_mem _ h
      · rw [if_neg h0] at h
        rcases List.mem_cons.1 h with h | h
        · exact h ▸ List.mem_cons_self _ _
        · exact List.mem_cons_of_mem _ (ih h)

theorem withModified_WF (c : Item) (t : Nat) (h : WF c) : WF (c.withModified t) := by
  cases h with
  | dir n co m cr md hm => exact WF.dir n co m cr t hm
  | file n co cr md => exact WF.file n co cr t

theorem withName_WF (s : Item) (n : String) (h : WF s) : WF (s.withName n) := by
  cases h with
  | dir n₀ co m cr md hm => exact WF.dir n co m cr md hm
  | file n₀ co cr md => exact WF.file n co cr md

theorem withChildrenModified_WF (x : Item) (m' : List (String × Item)) (md : Nat)
    (hx : x.type = ItemType.directory) (h : ∀ kv ∈ m', WF kv.2) :
    WF (x.withChildrenModified m' md) := by
  cases x with
  | mk nm ty co ch cr md₀ =>
      simp only [Item.type] at hx
      subst hx
      exact WF.dir nm co m' cr md h

theorem mkdirMut_wf (a : String) (t : Nat) (n n' : Item) (hn : WF n)
    (h : mkdirMut a t n = some n') : WF n' := by
  unfold mkdirMut at h
  cases hch : n.children with
  | none => simp only [hch] at h; exact Option.noConfusion h
  | some m =>
      simp only [hch, Option.some.injEq] at h
      obtain ⟨hty, hm⟩ := hn.dir_of_children hch
      subst h
      apply withChildrenModified_WF _ _ _ hty
      intro kv hkv
      rcases mem_setEntry _ _ _ _ hkv with hkv | hkv
      · exact hm kv hkv
      · rw [hkv]
        exact WF.dir a none [] t t (by simp)

theorem touchMut_wf (a : String) (t : Nat) (n n' : Item) (hn : WF n)
    (h : touchMut a t n = some n') : WF n' := by
  unfold touchMut at h
  cases hch : n.children with
  | none => simp only [hch] at h; exact Option.noConfusion h
  | some m =>
      simp only [hch] at h
      obtain ⟨hty, hm⟩ := hn.dir_of_children hch
      cases hlk : lookupEntry m a with
      | some c =>
          simp only [hlk, Option.some.injEq] at h
          subst h
          apply withChildrenModified_WF _ _ _ hty
          intro kv hkv
          rcases mem_setEntry _ _ _ _ hkv with hkv | hkv
          · exact hm kv hkv
          · rw [hkv]
            exact withModified_WF c t (hm (a, c) (lookupEntry_mem m a c hlk))
      | none =>
          simp only [hlk, Option.some.injEq] at h
          subst h
          apply withChildrenModified_WF _ _ _ hty
          intro kv hkv
          rcases mem_setEntry _ _ _ _ hkv with hkv | hkv
          · exact hm kv hkv
          · rw [hkv]
            exact WF.file a (some "") t t

theorem delMut_wf (a : String) (t : Nat) (n n' : Item) (hn : WF n)
    (h : delMut a t n = some n') : WF n' := by
  unfold delMut at h
  cases hch : n.children with
  | none => simp only [hch] at h; exact Option.noConfusion h
  | some m =>
      simp only [hch, Option.some.injEq] at h
      obtain ⟨hty, hm⟩ := hn.dir_of_children hch
      subst h
      apply withChildrenModified_WF _ _ _ hty
      intro kv hkv
      exact hm kv (mem_eraseEntry _ _ _ hkv)

theorem mvMut_wf (a b : String) (t : Nat) (n n' : Item) (hn : WF n)
    (h : mvMut a b t n = some n') : WF n' := by
  unfold mvMut at h
  cases hch : n.children with
  | none => simp only [hch] at h; exact Option.noConfusion h
  | some m =>
      simp only [hch] at h
      obtain ⟨hty, hm⟩ := hn.dir_of_children hch
      cases hlk : lookupEntry m a with
      | none => simp only [hlk] at h; exact Option.noConfusion h
      | some s =>
          simp only [hlk, Option.some.injEq] at h
          subst h
          apply withChildrenModified_WF _ _ _ hty
          intro kv hkv
          have hkv' := mem_eraseEntry _ _ _ hkv
          rcases mem_setEntry _ _ _ _ hkv' with hkv' | hkv'
          · exact hm kv hkv'
          · rw [hkv']
            exact withName_WF s b (hm (a, s) (lookupEntry_mem m a s hlk))

theorem cpMut_wf (a b : String) (t : Nat) (n n' : Item) (hn : WF n)
    (h : cpMut a b t n = some n') : WF n' := by
  unfold cpMut at h
  cases hch : n.children with
  | none => simp only [hch] at h; exact Option.noConfusion h
  | some m =>
      simp only [hch] at h
      obtain ⟨hty, hm⟩ := hn.dir_of_children hch
      cases hlk : lookupEntry m a with
      | none => simp only [hlk] at h; exact Option.noConfusion h
      | some s =>
          simp only [hlk, Option.some.injEq] at h
          subst h
          apply withChildrenModified_WF _ _ _ hty
          intro kv hkv
          rcases mem_setEntry _ _ _ _ hkv with hkv | hkv
          · exact hm kv hkv
          · rw [hkv]
            have hs := hm (a, s) (lookupEntry_mem m a s hlk)
            cases hs with
            | dir n₀ co m₀ cr md hm₀ =>
                simp only [Item.type, Item.content, Item.children]
                exact WF.dir b co m₀ t t hm₀
            | file n₀ co cr md =>
                simp only [Item.type, Item.content, Item.children]
                exact WF.file b co t t

theorem modifyAt_WF (p : List String) :
    ∀ (r r' : Item) (f : Item → Option Item),
      WF r → modifyAt r p f = some r' →
      (∀ n n', WF n → f n = some n' → WF n') → WF r' := by
  induction p with
  | nil => intro r r' f hr h hf; exact hf r r' hr h
  | cons s rest ih =>
      intro r r' f hr h hf
      simp only [modifyAt] at h
      cases hch : r.children with
      | none => simp only [hch] at h; exact Option.noConfusion h
      | some m =>
          simp only [hch] at h
          obtain ⟨hty, hm⟩ := hr.dir_of_children hch
          cases hlk : lookupEntry m s with
          | none => simp only [hlk] at h; exact Option.noConfusion h
          | some c =>
              simp only [hlk] at h
              cases hrec : modifyAt c rest f with
              | none => simp only [hrec] at h; exact Option.noConfusion h
              | some c' =>
                  simp only [hrec, Option.some.injEq] at h
                  subst h
                  have hc' := ih c c' f (hm (s, c) (lookupEntry_mem m s c hlk)) hrec hf
                  apply withChildrenModified_WF _ _ _ hty
                  intro kv hkv
                  rcases mem_setEntry _ _ _ _ hkv with hkv | hkv
                  · exact hm kv hkv
                  · rw [hkv]; exact hc'

theorem getItemAtPath_WF (p : List String) :
    ∀ (r d : Item), WF r → getItemAtPath r p = some d → WF d := by
  induction p with
  | nil =>
      intro r d hr h
      simp only [getItemAtPath, Option.some.injEq] at h
      exact h ▸ hr
  | cons s rest ih =>
      intro r d hr h
      simp only [getItemAtPath] at h
      cases hch : r.children with
      | none => simp only [hch] at h; exact Option.noConfusion h
      | some m =>
          simp only [hch] at h
          obtain ⟨hty, hm⟩ := hr.dir_of_children hch
          cases hlk : lookupEntry m s with
          | none => simp only [hlk] at h; exact Option.noConfusion h
          | some c =>
              simp only [hlk] at h
              exact ih c d (hm (s, c) (lookupEntry_mem m s c hlk)) h

/-- In a well-formed tree, every strict prefix of a resolvable path names a
directory (the walk passes through its `children`). -/
theorem getItemAtPath_prefix_dir (p : List String) :
    ∀ (r d : Item) (k : Nat), WF r → getItemAtPath r p = some d → k < p.length →
      ∃ n, getItemAtPath r (p.take k) = some n ∧ n.type = ItemType.directory := by
  induction p with
  | nil => intro r d k hr h hk; exact absurd hk (by simp)
  | cons s rest ih =>
      intro r d k hr h hk
      simp only [getItemAtPath] at h
      cases hch : r.children with
      | none => simp only [hch] at h; exact Option.noConfusion h
      | some m =>
          simp only [hch] at h
          obtain ⟨hty, hm⟩ := hr.dir_of_children hch
          cases hlk : lookupEntry m s with
          | none => simp only [hlk] at h; exact Option.noConfusion h
          | some c =>
              simp only [hlk] at h
              cases k with
              | zero => exact ⟨r, rfl, hty⟩
              | succ j =>
                  obtain ⟨n, hn, hnty⟩ := ih c d j
                    (hm (s, c) (lookupEntry_mem m s c hlk)) h
                    (by simpa using Nat.lt_of_succ_lt_succ hk)
                  refine ⟨n, ?_, hnty⟩
                  simp only [List.take_succ_cons, getItemAtPath, hch, hlk, hn]

/-! ## State-shape analysis: what a successful command can do to the state.
Shared machinery for claims C5 and C6. -/

@[simp] theorem name_withChildrenModified (x : Item) (m : List (String × Item)) (md : Nat) :
    (x.withChildrenModified m md).name = x.name := by
  cases x; rfl

@[simp] theorem type_withChildrenModified (x : Item) (m : List (String × Item)) (md : Nat) :
    (x.withChildrenModified m md).type = x.type := by
  cases x; rfl

@[simp] theorem children_withChildrenModified (x : Item) (m : List (String × Item)) (md : Nat) :
    (x.withChildrenModified m md).children = some m := by
  cases x; rfl

@[simp] theorem content_withChildrenModified (x : Item) (m : List (String × Item)) (md : Nat) :
    (x.withChildrenModified m md).content = x.content := by
  cases x; rfl

@[simp] theorem modified_withChildrenModified (x : Item) (m : List (String × Item)) (md : Nat) :
    (x.withChildrenModified m md).modified = md := by
  cases x; rfl

@[simp] theorem name_withName (x : Item) (n : String) : (x.withName n).name = n := by
  cases x; rfl

@[simp] theorem type_withName (x : Item) (n : String) : (x.withName n).type = x.type := by
  cases x; rfl

@[simp] theorem content_withName (x : Item) (n : String) : (x.withName n).content = x.content := by
  cases x; rfl

@[simp] theorem children_withName (x : Item) (n : String) :
    (x.withName n).children = x.children := by
  cases x; rfl

@[simp] theorem created_withName (x : Item) (n : String) : (x.withName n).created = x.created := by
  cases x; rfl

@[simp] theorem modified_withName (x : Item) (n : String) :
    (x.withName n).modified = x.modified := by
  cases x; rfl

/-- A mutator is good when it preserves the mutated node's name and type and
leaves it with a present `children` mapping.  All six command mutators are. -/
def MutGood (f : Item → Option Item) : Prop :=
  ∀ n n', f n = some n' →
    n'.name = n.name ∧ n'.type = n.type ∧ n'.children.isSome = true

theorem mkdirMut_good (a : String) (t : Nat) : MutGood (mkdirMut a t) := by
  intro n n' h
  unfold mkdirMut at h
  cases hch : n.children with
  | none => simp only [hch] at h; exact Option.noConfusion h
  | some m =>
      simp only [hch, Option.some.injEq] at h
      subst h; simp

theorem touchMut_good (a : String) (t : Nat) : MutGood (touchMut a t) := by
  intro n n' h
  unfold touchMut at h
  cases hch : n.children with
  | none => simp only [hch] at h; exact Option.noConfusion h
  | some m =>
      simp only [hch] at h
      cases hlk : lookupEntry m a with
      | some c => simp only [hlk, Option.some.injEq] at h; subst h; simp
      | none => simp only [hlk, Option.some.injEq] at h; subst h; simp

theorem delMut_good (a : String) (t : Nat) : MutGood (delMut a t) := by
  intro n n' h
  unfold delMut at h
  cases hch : n.children with
  | none => simp only [hch] at h; exact Option.noConfusion h
  | some m =>
      simp only [hch, Option.some.injEq] at h
      subst h; simp

theorem mvMut_good (a b : String) (t : Nat) : MutGood (mvMut a b t) := by
  intro n n' h
  unfold mvMut at h
  cases hch : n.children with
  | none => simp only [hch] at h; exact Option.noConfusion h
  | some m =>
      simp only [hch] at h
      cases hlk : lookupEntry m a with
      | none => simp only [hlk] at h; exact Option.noConfusion h
      | some s => simp only [hlk, Option.some.injEq] at h; subst h; simp

theorem cpMut_good (a b : String) (t : Nat) : MutGood (cpMut a b t) := by
  intro n n' h
  unfold cpMut at h
  cases hch : n.children with
  | none => simp only [hch] at h; exact Option.noConfusion h
  | some m =>
      simp only [hch] at h
      cases hlk : lookupEntry m a with
      | none => simp only [hlk] at h; exact Option.noConfusion h
      | some s => simp only [hlk, Option.some.injEq] at h; subst h; simp

/-- A good mutation walk preserves the root's name and type and leaves its
`children` present. -/
theorem modifyAt_good_fields (r r' : Item) (p : List String) (f : Item → Option Item)
    (hg : MutGood f) (h : modifyAt r p f = some r') :
    r'.name = r.name ∧ r'.type = r.type ∧ r'.children.isSome = true := by
  cases p with
  | nil => exact hg r r' h
  | cons s rest =>
      simp only [modifyAt] at h
      cases hch : r.children with
      | none => simp only [hch] at h; exact Option.noConfusion h
      | some m =>
          simp only [hch] at h
          cases hlk : lookupEntry m s with
          | none => simp only [hlk] at h; exact Option.noConfusion h
          | some c =>
              simp only [hlk] at h
              cases hrec : modifyAt c rest f with
              | none => simp only [hrec] at h; exact Option.noConfusion h
              | some c' =>
                  simp only [hrec, Option.some.injEq] at h
                  subst h; simp

/-- Shape of any successful step: the state is unchanged, or `cd` reset the
path to the default home, or `cd` moved to a verified directory, or a good
mutator ran at `currentPath` leaving the path untouched. -/
def StepShape (fs fs' : FS) : Prop :=
  fs' = fs
  ∨ (fs'.root = fs.root ∧ fs'.currentPath = ["home", "user"])
  ∨ (fs'.root = fs.root ∧
      ∃ d, getItemAtPath fs.root fs'.currentPath = some d ∧ d.type = .directory)
  ∨ (∃ f, MutGood f ∧ (∀ n n', WF n → f n = some n' → WF n') ∧
      modifyAt fs.root fs.currentPath f = some fs'.root ∧
      fs'.currentPath = fs.currentPath)

theorem cmdLs_state (fs : FS) (args : List String) (r : CommandResult) (fs' : FS)
    (h : cmdLs fs args = some (r, fs')) : fs' = fs := by
  simp only [cmdLs] at h
  repeat' split at h
  all_goals (
    simp only [errRes, okRes, Option.some.injEq, Prod.mk.injEq] at h
    exact h.2.symm)

theorem cmdCat_state (fs : FS) (args : List String) (r : CommandResult) (fs' : FS)
    (h : cmdCat fs args = some (r, fs')) : fs' = fs := by
  simp only [cmdCat] at h
  repeat' split at h
  all_goals (
    simp only [errRes, okRes, Option.some.injEq, Prod.mk.injEq] at h
    exact h.2.symm)

theorem cmdCurl_state (now : Nat) (fs : FS) (args : List String) (r : CommandResult) (fs' : FS)
    (h : cmdCurl now fs args = some (r, fs')) : fs' = fs := by
  simp only [cmdCurl] at h
  repeat' split at h
  all_goals (
    simp only [errRes, okRes, Option.some.injEq, Prod.mk.injEq] at h
    exact h.2.symm)

theorem cmdCd_shape (fs : FS) (args : List String) (r : CommandResult) (fs' : FS)
    (h : cmdCd fs args = some (r, fs')) : StepShape fs fs' := by
  simp only [cmdCd] at h
  by_cases h1 : argAt args 1 = ""
  · rw [if_pos h1] at h
    simp only [okRes, Option.some.injEq, Prod.mk.injEq] at h
    exact Or.inr (Or.inl (by rw [← h.2]; exact ⟨rfl, rfl⟩))
  rw [if_neg h1] at h
  cases hg : getItemAtPath fs.root (resolvePath fs.currentPath (argAt args 1)) with
  | none =>
      simp only [hg, errRes, Option.some.injEq, Prod.mk.injEq] at h
      exact Or.inl h.2.symm
  | some d =>
      simp only [hg] at h
      by_cases h2 : d.type ≠ ItemType.directory
      · rw [if_pos h2] at h
        simp only [errRes, Option.some.injEq, Prod.mk.injEq] at h
        exact Or.inl h.2.symm
      · rw [if_neg h2] at h
        rw [not_not] at h2
        simp only [okRes, Option.some.injEq, Prod.mk.injEq] at h
        refine Or.inr (Or.inr (Or.inl ⟨by rw [← h.2], d, ?_, h2⟩))
        rw [← h.2]
        exact hg

theorem cmdMkdir_shape (now : Nat) (fs : FS) (args : List String) (r : CommandResult) (fs' : FS)
    (h : cmdMkdir now fs args = some (r, fs')) : StepShape fs fs' := by
  simp only [cmdMkdir] at h
  by_cases h1 : argAt args 1 = ""
  · rw [if_pos h1] at h
    simp only [errRes, Option.some.injEq, Prod.mk.injEq] at h
    exact Or.inl h.2.symm
  rw [if_neg h1] at h
  cases hch : (getCurrentDirectory fs).children with
  | none =>
      simp only [hch, errRes, Option.some.injEq, Prod.mk.injEq] at h
      exact Or.inl h.2.symm
  | some m =>
      simp only [hch] at h
      by_cases h2 : (lookupEntry m (argAt args 1)).isSome = true
      · rw [if_pos h2] at h
        simp only [errRes, Option.some.injEq, Prod.mk.injEq] at h
        exact Or.inl h.2.symm
      · rw [if_neg h2] at h
        cases hmod : modifyAt fs.root fs.currentPath (mkdirMut (argAt args 1) now) with
        | none => simp only [hmod] at h; exact Option.noConfusion h
        | some root' =>
            simp only [hmod, okRes, Option.some.injEq, Prod.mk.injEq] at h
            refine Or.inr (Or.inr (Or.inr
              ⟨mkdirMut (argAt args 1) now, mkdirMut_good _ _, fun n n' => mkdirMut_wf (argAt args 1) now n n', ?_, ?_⟩))
            · rw [← h.2]; exact hmod
            · rw [← h.2]

theorem cmdTouch_shape (now : Nat) (fs : FS) (args : List String) (r : CommandResult) (fs' : FS)
    (h : cmdTouch now fs args = some (r, fs')) : StepShape fs fs' := by
  simp only [cmdTouch] at h
  by_cases h1 : argAt args 1 = ""
  · rw [if_pos h1] at h
    simp only [errRes, Option.some.injEq, Prod.mk.injEq] at h
    exact Or.inl h.2.symm
  rw [if_neg h1] at h
  cases hch : (getCurrentDirectory fs).children with
  | none =>
      simp only [hch, errRes, Option.some.injEq, Prod.mk.injEq] at h
      exact Or.inl h.2.symm
  | some m =>
      simp only [hch] at h
      cases hmod : modifyAt fs.root fs.currentPath (touchMut (argAt args 1) now) with
      | none => simp only [hmod] at h; exact Option.noConfusion h
      | some root' =>
          simp only [hmod, okRes, Option.some.injEq, Prod.mk.injEq] at h
          refine Or.inr (Or.inr (Or.inr
            ⟨touchMut (argAt args 1) now, touchMut_good _ _, fun n n' => touchMut_wf (argAt args 1) now n n', ?_, ?_⟩))
          · rw [← h.2]; exact hmod
          · rw [← h.2]

theorem cmdRm_shape (now : Nat) (fs : FS) (args : List String) (r : CommandResult) (fs' : FS)
    (h : cmdRm now fs args = some (r, fs')) : StepShape fs fs' := by
  simp only [cmdRm] at h
  by_cases h1 : argAt args 1 = ""
  · rw [if_pos h1] at h
    simp only [errRes, Option.some.injEq, Prod.mk.injEq] at h
    exact Or.inl h.2.symm
  rw [if_neg h1] at h
  cases hch : (getCurrentDirectory fs).children with
  | none =>
      simp only [hch, errRes, Option.some.injEq, Prod.mk.injEq] at h
      exact Or.inl h.2.symm
  | some m =>
      simp only [hch] at h
      cases hlk : lookupEntry m (argAt args 1) with
      | none =>
          simp only [hlk, errRes, Option.some.injEq, Prod.mk.injEq] at h
          exact Or.inl h.2.symm
      | some c =>
          simp only [hlk] at h
          by_cases h2 : c.type = ItemType.directory
          · rw [if_pos h2] at h
            simp only [errRes, Option.some.injEq, Prod.mk.injEq] at h
            exact Or.inl h.2.symm
          · rw [if_neg h2] at h
            cases hmod : modifyAt fs.root fs.currentPath (delMut (argAt args 1) now) with
            | none => simp only [hmod] at h; exact Option.noConfusion h
            | some root' =>
                simp only [hmod, okRes, Option.some.injEq, Prod.mk.injEq] at h
                refine Or.inr (Or.inr (Or.inr
                  ⟨delMut (argAt args 1) now, delMut_good _ _, fun n n' => delMut_wf (argAt args 1) now n n', ?_, ?_⟩))
                · rw [← h.2]; exact hmod
                · rw [← h.2]

theorem cmdRmdir_shape (now : Nat) (fs : FS) (args : List String) (r : CommandResult) (fs' : FS)
    (h : cmdRmdir now fs args = some (r, fs')) : StepShape fs fs' := by
  simp only [cmdRmdir] at h
  by_cases h1 : argAt args 1 = ""
  · rw [if_pos h1] at h
    simp only [errRes, Option.some.injEq, Prod.mk.injEq] at h
    exact Or.inl h.2.symm
  rw [if_neg h1] at h
  cases hch : (getCurrentDirectory fs).children with
  | none =>
      simp only [hch, errRes, Option.some.injEq, Prod.mk.injEq] at h
      exact Or.inl h.2.symm
  | some m =>
      simp only [hch] at h
      cases hlk : lookupEntry m (argAt args 1) with
      | none =>
          simp only [hlk, errRes, Option.some.injEq, Prod.mk.injEq] at h
          exact Or.inl h.2.symm
      | some c =>
          simp only [hlk] at h
          by_cases h2 : c.type ≠ ItemType.directory
          · rw [if_pos h2] at h
            simp only [errRes, Option.some.injEq, Prod.mk.injEq] at h
            exact Or.inl h.2.symm
          · rw [if_neg h2] at h
            cases hcc : c.children with
            | some m' =>
                simp only [hcc] at h
                by_cases h3 : m'.length > 0
                · rw [if_pos h3] at h
                  simp only [errRes, Option.some.injEq, Prod.mk.injEq] at h
                  exact Or.inl h.2.symm
                · rw [if_neg h3] at h
                  cases hmod : modifyAt fs.root fs.currentPath (delMut (argAt args 1) now) with
                  | none => simp only [hmod] at h; exact Option.noConfusion h
                  | some root' =>
                      simp only [hmod, okRes, Option.some.injEq, Prod.mk.injEq] at h
                      refine Or.inr (Or.inr (Or.inr
                        ⟨delMut (argAt args 1) now, delMut_good _ _, fun n n' => delMut_wf (argAt args 1) now n n', ?_, ?_⟩))
                      · rw [← h.2]; exact hmod
                      · rw [← h.2]
            | none =>
                simp only [hcc] at h
                cases hmod : modifyAt fs.root fs.currentPath (delMut (argAt args 1) now) with
                | none => simp only [hmod] at h; exact Option.noConfusion h
                | some root' =>
                    simp only [hmod, okRes, Option.some.injEq, Prod.mk.injEq] at h
                    refine Or.inr (Or.inr (Or.inr
                      ⟨delMut (argAt args 1) now, delMut_good _ _, fun n n' => delMut_wf (argAt args 1) now n n', ?_, ?_⟩))
                    · rw [← h.2]; exact hmod
                    · rw [← h.2]

theorem cmdMv_shape (now : Nat) (fs : FS) (args : List String) (r : CommandResult) (fs' : FS)
    (h : cmdMv now fs args = some (r, fs')) : StepShape fs fs' := by
  simp only [cmdMv] at h
  by_cases h1 : argAt args 1 = "" ∨ argAt args 2 = ""
  · rw [if_pos h1] at h
    simp only [errRes, Option.some.injEq, Prod.mk.injEq] at h
    exact Or.inl h.2.symm
  rw [if_neg h1] at h
  cases hch : (getCurrentDirectory fs).children with
  | none =>
      simp only [hch, errRes, Option.some.injEq, Prod.mk.injEq] at h
      exact Or.inl h.2.symm
  | some m =>
      simp only [hch] at h
      cases hlk : lookupEntry m (argAt args 1) with
      | none =>
          simp only [hlk, errRes, Option.some.injEq, Prod.mk.injEq] at h
          exact Or.inl h.2.symm
      | some c =>
          simp only [hlk] at h
          by_cases h2 : (lookupEntry m (argAt args 2)).isSome = true
          · rw [if_pos h2] at h
            simp only [errRes, Option.some.injEq, Prod.mk.injEq] at h
            exact Or.inl h.2.symm
          · rw [if_neg h2] at h
            cases hmod : modifyAt fs.root fs.currentPath
                (mvMut (argAt args 1) (argAt args 2) now) with
            | none => simp only [hmod] at h; exact Option.noConfusion h
            | some root' =>
                simp only [hmod, okRes, Option.some.injEq, Prod.mk.injEq] at h
                refine Or.inr (Or.inr (Or.inr
                  ⟨mvMut (argAt args 1) (argAt args 2) now, mvMut_good _ _ _, fun n n' => mvMut_wf (argAt args 1) (argAt args 2) now n n', ?_, ?_⟩))
                · rw [← h.2]; exact hmod
                · rw [← h.2]

theorem cmdCp_shape (now : Nat) (fs : FS) (args : List String) (r : CommandResult) (fs' : FS)
    (h : cmdCp now fs args = some (r, fs')) : StepShape fs fs' := by
  simp only [cmdCp] at h
  by_cases h1 : argAt args 1 = "" ∨ argAt args 2 = ""
  · rw [if_pos h1] at h
    simp only [errRes, Option.some.injEq, Prod.mk.injEq] at h
    exact Or.inl h.2.symm
  rw [if_neg h1] at h
  cases hch : (getCurrentDirectory fs).children with
  | none =>
      simp only [hch, errRes, Option.some.injEq, Prod.mk.injEq] at h
      exact Or.inl h.2.symm
  | some m =>
      simp only [hch] at h
      cases hlk : lookupEntry m (argAt args 1) with
      | none =>
          simp only [hlk, errRes, Option.some.injEq, Prod.mk.injEq] at h
          exact Or.inl h.2.symm
      | some c =>
          simp only [hlk] at h
          by_cases h2 : (lookupEntry m (argAt args 2)).isSome = true
          · rw [if_pos h2] at h
            simp only [errRes, Option.some.injEq, Prod.mk.injEq] at h
            exact Or.inl h.2.symm
          · rw [if_neg h2] at h
            by_cases h3 : c.type = ItemType.directory
            · rw [if_pos h3] at h
              simp only [errRes, Option.some.injEq, Prod.mk.injEq] at h
              exact Or.inl h.2.symm
            · rw [if_neg h3] at h
              cases hmod : modifyAt fs.root fs.currentPath
                  (cpMut (argAt args 1) (argAt args 2) now) with
              | none => simp only [hmod] at h; exact Option.noConfusion h
              | some root' =>
                  simp only [hmod, okRes, Option.some.injEq, Prod.mk.injEq] at h
                  refine Or.inr (Or.inr (Or.inr
                    ⟨cpMut (argAt args 1) (argAt args 2) now, cpMut_good _ _ _, fun n n' => cpMut_wf (argAt args 1) (argAt args 2) now n n', ?_, ?_⟩))
                  · rw [← h.2]; exact hmod
                  · rw [← h.2]

/-- Shape of any successful `executeCommand` step. -/
theorem execToks_shape (now : Nat) (fs : FS) (args : List String) (r : CommandResult) (fs' : FS)
    (h : execToks now fs args = some (r, fs')) : StepShape fs fs' := by
  simp only [execToks] at h
  by_cases h0 : argAt args 0 = ""
  · rw [if_pos h0] at h
    simp only [okRes, Option.some.injEq, Prod.mk.injEq] at h
    exact Or.inl h.2.symm
  rw [if_neg h0] at h
  by_cases h1 : ¬ supportedCommands.contains (argAt args 0) = true
  · rw [if_pos h1] at h
    simp only [errRes, Option.some.injEq, Prod.mk.injEq] at h
    exact Or.inl h.2.symm
  rw [if_neg h1] at h
  by_cases h2 : argAt args 0 = "help"
  · rw [if_pos h2] at h
    simp only [okRes, Option.some.injEq, Prod.mk.injEq] at h
    exact Or.inl h.2.symm
  rw [if_neg h2] at h
  by_cases h3 : argAt args 0 = "clear"
  · rw [if_pos h3] at h
    simp only [okRes, Option.some.injEq, Prod.mk.injEq] at h
    exact Or.inl h.2.symm
  rw [if_neg h3] at h
  by_cases h4 : argAt args 0 = "pwd"
  · rw [if_pos h4] at h
    simp only [okRes, Option.some.injEq, Prod.mk.injEq] at h
    exact Or.inl h.2.symm
  rw [if_neg h4] at h
  by_cases h5 : argAt args 0 = "ls"
  · rw [if_pos h5] at h
    exact Or.inl (cmdLs_state fs args r fs' h)
  rw [if_neg h5] at h
  by_cases h6 : argAt args 0 = "cd"
  · rw [if_pos h6] at h
    exact cmdCd_shape fs args r fs' h
  rw [if_neg h6] at h
  by_cases h7 : argAt args 0 = "mkdir"
  · rw [if_pos h7] at h
    exact cmdMkdir_shape now fs args r fs' h
  rw [if_neg h7] at h
  by_cases h8 : argAt args 0 = "touch"
  · rw [if_pos h8] at h
    exact cmdTouch_shape now fs args r fs' h
  rw [if_neg h8] at h
  by_cases h9 : argAt args 0 = "rm"
  · rw [if_pos h9] at h
    exact cmdRm_shape now fs args r fs' h
  rw [if_neg h9] at h
  by_cases h10 : argAt args 0 = "rmdir"
  · rw [if_pos h10] at h
    exact cmdRmdir_shape now fs args r fs' h
  rw [if_neg h10] at h
  by_cases h11 : argAt args 0 = "cat"
  · rw [if_pos h11] at h
    exact Or.inl (cmdCat_state fs args r fs' h)
  rw [if_neg h11] at h
  by_cases h12 : argAt args 0 = "curl"
  · rw [if_pos h12] at h
    exact Or.inl (cmdCurl_state now fs args r fs' h)
  rw [if_neg h12] at h
  by_cases h13 : argAt args 0 = "mv"
  · rw [if_pos h13] at h
    exact cmdMv_shape now fs args r fs' h
  rw [if_neg h13] at h
  exact cmdCp_shape now fs args r fs' h

/-! ## The reachable-state invariant and claims C5 / C6 -/

theorem WF.children_isSome {x : Item} (hx : WF x) (hty : x.type = ItemType.directory) :
    x.children.isSome = true := by
  cases hx with
  | dir n c m cr md hm => simp [Item.children]
  | file n c cr md => simp only [Item.type] at hty; exact ItemType.noConfusion hty

/-- Invariant of every state reachable from the seed: the tree is well-formed,
the root is an anonymous directory, and the current path either resolves to an
existing directory or is the literal default `["home","user"]` (restored by an
argument-less `cd`, possibly after `/home/user` was deleted). -/
def Inv (fs : FS) : Prop :=
  WF fs.root ∧ fs.root.name = "" ∧ fs.root.type = ItemType.directory ∧
  ((∃ d, getItemAtPath fs.root fs.currentPath = some d ∧ d.type = ItemType.directory)
    ∨ fs.currentPath = ["home", "user"])

theorem step_Inv (fs fs' : FS) (hs : StepShape fs fs') (h : Inv fs) : Inv fs' := by
  obtain ⟨hwf, hname, hty, hpath⟩ := h
  rcases hs with rfl | ⟨hroot, hcp⟩ | ⟨hroot, d, hd, hdir⟩ | ⟨f, hgood, hwfp, hmod, hcp⟩
  · exact ⟨hwf, hname, hty, hpath⟩
  · exact ⟨hroot ▸ hwf, hroot ▸ hname, hroot ▸ hty, Or.inr hcp⟩
  · exact ⟨hroot ▸ hwf, hroot ▸ hname, hroot ▸ hty, Or.inl ⟨d, hroot ▸ hd, hdir⟩⟩
  · obtain ⟨hname', hty', _⟩ := modifyAt_good_fields fs.root fs'.root fs.currentPath f hgood hmod
    refine ⟨modifyAt_WF fs.currentPath fs.root fs'.root f hwf hmod hwfp,
      hname'.trans hname, hty'.trans hty, ?_⟩
    rcases hpath with ⟨d, hd, hdir⟩ | hdef
    · obtain ⟨n, n', hn, hfn, hn'⟩ := modifyAt_spec fs.currentPath fs.root fs'.root f hmod
      rw [hd] at hn
      injection hn with hn
      subst hn
      obtain ⟨_, hty'', _⟩ := hgood d n' hfn
      exact Or.inl ⟨n', hcp ▸ hn', hty''.trans hdir⟩
    · exact Or.inr (hcp.trans hdef)

theorem execList_Inv (cmds : List (Nat × String)) :
    ∀ fs fs', Inv fs → execList fs cmds = some fs' → Inv fs' := by
  induction cmds with
  | nil =>
      intro fs fs' h hx
      simp only [execList, Option.some.injEq] at hx
      exact hx ▸ h
  | cons c rest ih =>
      intro fs fs' h hx
      obtain ⟨t, l⟩ := c
      simp only [execList] at hx
      cases hexec : executeCommand t fs l with
      | none => simp only [hexec] at hx; exact Option.noConfusion hx
      | some p =>
          obtain ⟨r, fs₁⟩ := p
          simp only [hexec] at hx
          exact ih fs₁ fs' (step_Inv fs fs₁ (execToks_shape t fs (tokenize l) r fs₁ hexec) h) hx

theorem initialFS_WF (t0 : Nat) : WF (createInitialFileSystem t0).root := by
  simp only [createInitialFileSystem]
  refine WF.dir _ _ _ _ _ ?_
  intro kv hkv
  simp only [List.mem_cons, List.not_mem_nil, or_false] at hkv
  rcases hkv with rfl | rfl
  · refine WF.dir _ _ _ _ _ ?_
    intro kv hkv
    simp only [List.mem_cons, List.not_mem_nil, or_false] at hkv
    rcases hkv with rfl
    refine WF.dir _ _ _ _ _ ?_
    intro kv hkv
    simp only [List.mem_cons, List.not_mem_nil, or_false] at hkv
    rcases hkv with rfl | rfl
    · exact WF.file _ _ _ _
    · exact WF.dir _ _ _ _ _ (by simp)
  · exact WF.dir _ _ _ _ _ (by simp)

theorem initialFS_Inv (t0 : Nat) : Inv (createInitialFileSystem t0) :=
  ⟨initialFS_WF t0, rfl, rfl, Or.inr rfl⟩

/-- Claim C5, amended: after every successfully executed command sequence from
the initial FileSystem, either every prefix of `currentPath` names an existing
Directory node starting from root, or `currentPath` is the literal default
`["home","user"]` — the value an argument-less `cd` restores without checking
that it still exists.  The unrestricted invariant fails: deleting `/home/user`
and then running a bare `cd` leaves an unresolvable current path (see the
counterexample). -/
theorem claim5_currentPath_invariant (t0 : Nat) (cmds : List (Nat × String)) (fs : FS)
    (h : execList (createInitialFileSystem t0) cmds = some fs) :
    (∀ k, k ≤ fs.currentPath.length →
      ∃ d, getItemAtPath fs.root (fs.currentPath.take k) = some d ∧
        d.type = ItemType.directory)
    ∨ fs.currentPath = ["home", "user"] := by
  obtain ⟨hwf, _, _, hpath⟩ := execList_Inv cmds (createInitialFileSystem t0) fs
    (initialFS_Inv t0) h
  rcases hpath with ⟨d, hd, hdir⟩ | hdef
  · left
    intro k hk
    rcases Nat.lt_or_ge k fs.currentPath.length with hlt | hge
    · exact getItemAtPath_prefix_dir fs.currentPath fs.root d k hwf hd hlt
    · have hk' : k = fs.currentPath.length := Nat.le_antisymm hk hge
      subst hk'
      rw [List.take_length]
      exact ⟨d, hd, hdir⟩
  · exact Or.inr hdef

/-- The command sequence that empties and removes `/home/user` and then runs a
bare `cd`. -/
def ghostCommands : List (Nat × String) :=
  [(1, "rm welcome.txt"), (2, "rmdir documents"), (3, "cd /home"), (4, "rmdir user"), (5, "cd")]

/-- The state that sequence reaches. -/
def ghostState : FS :=
  (execList (createInitialFileSystem 0) ghostCommands).getD (createInitialFileSystem 0)

/-- Counterexample to C5 as stated: after `ghostCommands`, `currentPath` is
`["home","user"]` but no node exists at that path (its 2-element prefix, the
path itself, resolves to nothing), because the argument-less `cd` resets the
cursor to the hard-coded default without existence checking. -/
theorem claim5_counterexample :
    execList (createInitialFileSystem 0) ghostCommands = some ghostState ∧
    ghostState.currentPath = ["home", "user"] ∧
    getItemAtPath ghostState.root (ghostState.currentPath.take 2) = none :=
  ⟨rfl, rfl, rfl⟩

/-- Witness for C5 (amended): one `mkdir` step from the seed keeps the
invariant. -/
theorem claim5_currentPath_invariant_witness :
    execList (createInitialFileSystem 0) [(1, "mkdir a")] =
      some ((execList (createInitialFileSystem 0) [(1, "mkdir a")]).getD
        (createInitialFileSystem 0)) ∧
    ((∀ k, k ≤ ((execList (createInitialFileSystem 0) [(1, "mkdir a")]).getD
          (createInitialFileSystem 0)).currentPath.length →
      ∃ d, getItemAtPath ((execList (createInitialFileSystem 0) [(1, "mkdir a")]).getD
          (createInitialFileSystem 0)).root
          (((execList (createInitialFileSystem 0) [(1, "mkdir a")]).getD
            (createInitialFileSystem 0)).currentPath.take k) = some d ∧
        d.type = ItemType.directory)
    ∨ ((execList (createInitialFileSystem 0) [(1, "mkdir a")]).getD
        (createInitialFileSystem 0)).currentPath = ["home", "user"]) :=
  ⟨rfl, claim5_currentPath_invariant 0 [(1, "mkdir a")] _ rfl⟩

/-- Claim C6: starting from the initial FileSystem, no command sequence can
delete the root node, change its name from the empty string, or leave it
without a valid `children` mapping: the root of every reachable state is an
anonymous directory with a present `children` record.  (Commands only ever
mutate entries of some node's `children`; the root object itself is rebuilt
with its name and kind intact.) -/
theorem claim6_root_immutable (t0 : Nat) (cmds : List (Nat × String)) (fs : FS)
    (h : execList (createInitialFileSystem t0) cmds = some fs) :
    fs.root.name = "" ∧ fs.root.type = ItemType.directory ∧
      fs.root.children.isSome = true := by
  obtain ⟨hwf, hname, hty, _⟩ := execList_Inv cmds (createInitialFileSystem t0) fs
    (initialFS_Inv t0) h
  exact ⟨hname, hty, hwf.children_isSome hty⟩

/-- Witness for C6: a three-command session (create, move up, remove a
directory) leaves the root intact. -/
theorem claim6_root_immutable_witness :
    execList (createInitialFileSystem 0) [(1, "mkdir a"), (2, "cd /"), (3, "rmdir tmp")] =
      some ((execList (createInitialFileSystem 0)
        [(1, "mkdir a"), (2, "cd /"), (3, "rmdir tmp")]).getD (createInitialFileSystem 0)) ∧
    (((execList (createInitialFileSystem 0)
        [(1, "mkdir a"), (2, "cd /"), (3, "rmdir tmp")]).getD
        (createInitialFileSystem 0)).root.name = "" ∧
      ((execList (createInitialFileSystem 0)
        [(1, "mkdir a"), (2, "cd /"), (3, "rmdir tmp")]).getD
        (createInitialFileSystem 0)).root.type = ItemType.directory ∧
      ((execList (createInitialFileSystem 0)
        [(1, "mkdir a"), (2, "cd /"), (3, "rmdir tmp")]).getD
        (createInitialFileSystem 0)).root.children.isSome = true) :=
  ⟨rfl, claim6_root_immutable 0 [(1, "mkdir a"), (2, "cd /"), (3, "rmdir tmp")] _ rfl⟩

/-! ## Claim C7: the rmdir non-empty guard -/

/-- Tokens produced by a non-degenerate tokenization are non-empty strings
(the tokenizer filters empty pieces; only the empty input yields `[""]`). -/
theorem tokenize_ne_empty (input : String) (l : List String)
    (h : tokenize input = l) (hl : l ≠ [""]) : ∀ s ∈ l, s ≠ "" := by
  unfold tokenize at h
  by_cases ht : trimChars input.data = []
  · rw [if_pos ht] at h
    exact absurd h.symm (by simpa using hl)
  · rw [if_neg ht] at h
    subst h
    intro s hs
    simpa using (List.mem_filter.1 hs).2

/-- Claim C7: in any state whose current path resolves, `rmdir <name>` on a
direct-child directory fails with `Directory not empty` exactly when the child
has at least one child of any kind (leaving the state untouched), and
otherwise deletes the child: the current directory's mapping loses the key and
the parent's `modified` is stamped. -/
theorem claim7_rmdir_guard (now : Nat) (fs : FS) (input name : String) (d c : Item)
    (m mc : List (String × Item))
    (htok : tokenize input = ["rmdir", name])
    (hd : getItemAtPath fs.root fs.currentPath = some d)
    (hm : d.children = some m)
    (hc : lookupEntry m name = some c)
    (hcty : c.type = ItemType.directory)
    (hcc : c.children = some mc)
    (hnd : (m.map Prod.fst).Nodup) :
    (mc ≠ [] →
      executeCommand now fs input =
        some (CommandResult.mk
          ("rmdir: failed to remove '" ++ name ++ "': Directory not empty") true, fs)) ∧
    (mc = [] →
      ∃ root', modifyAt fs.root fs.currentPath (delMut name now) = some root' ∧
        executeCommand now fs input = some (CommandResult.mk "" false, FS.mk root' fs.currentPath) ∧
        getItemAtPath root' fs.currentPath =
          some (d.withChildrenModified (eraseEntry m name) now) ∧
        lookupEntry (eraseEntry m name) name = none) := by
  have hne : name ≠ "" :=
    tokenize_ne_empty input ["rmdir", name] htok (by simp) name (by simp)
  have hdisp : executeCommand now fs input = cmdRmdir now fs ["rmdir", name] := by
    rw [executeCommand, htok]
    simp [execToks, argAt, supportedCommands]
  have harg : argAt ["rmdir", name] 1 = name := by simp [argAt]
  have hcur : getCurrentDirectory fs = d := by
    simp [getCurrentDirectory, hd]
  have hdel : delMut name now d = some (d.withChildrenModified (eraseEntry m name) now) := by
    simp [delMut, hm]
  constructor
  · intro hmc
    rw [hdisp]
    simp only [cmdRmdir, harg, if_neg hne, hcur, hm, hc, hcc]
    rw [if_neg (by simp [hcty]), if_pos (by simpa using List.length_pos.2 hmc)]
    rfl
  · intro hmc
    obtain ⟨root', hmod, hget⟩ :=
      modifyAt_of_getItemAtPath fs.currentPath fs.root d
        (d.withChildrenModified (eraseEntry m name) now) (delMut name now) hd hdel
    refine ⟨root', hmod, ?_, hget, lookup_eraseEntry_self m name hnd⟩
    rw [hdisp]
    simp only [cmdRmdir, harg, if_neg hne, hcur, hm, hc, hcc]
    rw [if_neg (by simp [hcty]), if_neg (by simp [hmc]), hmod]
    rfl

/-- Witness for C7: on the seed filesystem (current directory `/home/user`,
whose child `documents` is an empty directory and whose child map also holds
`welcome.txt`), `rmdir documents` succeeds; and in `/home`, `rmdir user`
(non-empty) fails.  This discharges the theorem's hypotheses at the empty
case. -/
theorem claim7_rmdir_guard_witness :
    tokenize "rmdir documents" = ["rmdir", "documents"] ∧
    ((([] : List (String × Item)) = [] →
      ∃ root', modifyAt (createInitialFileSystem 0).root
          (createInitialFileSystem 0).currentPath (delMut "documents" 7) = some root' ∧
        executeCommand 7 (createInitialFileSystem 0) "rmdir documents" =
          some (CommandResult.mk "" false, FS.mk root' (createInitialFileSystem 0).currentPath) ∧
        getItemAtPath root' (createInitialFileSystem 0).currentPath =
          some ((Item.mk "user" ItemType.directory none
            (some
              [("welcome.txt",
                Item.mk "welcome.txt" ItemType.file
                  (some "Welcome to the Web CLI Terminal!\nType \"help\" to see available commands.")
                  none 0 0),
               ("documents", Item.mk "documents" ItemType.directory none (some []) 0 0)])
            0 0).withChildrenModified
            (eraseEntry
              [("welcome.txt",
                Item.mk "welcome.txt" ItemType.file
                  (some "Welcome to the Web CLI Terminal!\nType \"help\" to see available commands.")
                  none 0 0),
               ("documents", Item.mk "documents" ItemType.directory none (some []) 0 0)]
              "documents") 7) ∧
        lookupEntry
          (eraseEntry
            [("welcome.txt",
              Item.mk "welcome.txt" ItemType.file
                (some "Welcome to the Web CLI Terminal!\nType \"help\" to see available commands.")
                none 0 0),
             ("documents", Item.mk "documents" ItemType.directory none (some []) 0 0)]
            "documents") "documents" = none)) :=
  ⟨rfl,
    (claim7_rmdir_guard 7 (createInitialFileSystem 0) "rmdir documents" "documents"
      (Item.mk "user" ItemType.directory none
        (some
          [("welcome.txt",
            Item.mk "welcome.txt" ItemType.file
              (some "Welcome to the Web CLI Terminal!\nType \"help\" to see available commands.")
              none 0 0),
           ("documents", Item.mk "documents" ItemType.directory none (some []) 0 0)])
        0 0)
      (Item.mk "documents" ItemType.directory none (some []) 0 0)
      [("welcome.txt",
        Item.mk "welcome.txt" ItemType.file
          (some "Welcome to the Web CLI Terminal!\nType \"help\" to see available commands.")
          none 0 0),
       ("documents", Item.mk "documents" ItemType.directory none (some []) 0 0)]
      [] rfl rfl rfl rfl rfl rfl (by decide)).2⟩

/-! ## Claim C8: touch/cat and cp/mv/cat round trips -/

/-- Computation of a successful `cat`: the output is the file's content
(empty string for absent-or-empty content) and the state is unchanged. -/
theorem cmdCat_output (t' : Nat) (fs₂ : FS) (lc name : String) (d' c : Item)
    (m' : List (String × Item))
    (htok : tokenize lc = ["cat", name]) (hname : name ≠ "")
    (hd' : getItemAtPath fs₂.root fs₂.currentPath = some d')
    (hm' : d'.children = some m')
    (hc : lookupEntry m' name = some c) (hcty : c.type = ItemType.file) :
    executeCommand t' fs₂ lc = some (CommandResult.mk (c.content.getD "") false, fs₂) := by
  have hdisp : executeCommand t' fs₂ lc = cmdCat fs₂ ["cat", name] := by
    rw [executeCommand, htok]
    simp [execToks, argAt, supportedCommands]
  have hcur : getCurrentDirectory fs₂ = d' := by
    simp [getCurrentDirectory, hd']
  have harg : argAt ["cat", name] 1 = name := by simp [argAt]
  rw [hdisp]
  simp only [cmdCat, harg, if_neg hname, hcur, hm', hc]
  rw [if_neg (by simp [hcty])]
  rfl

/-- Claim C8, part for `touch`: in a current directory with no child `f`,
`touch f` creates an empty file and a following `cat f` prints the empty
string. -/
theorem claim8_touch_cat (t t' : Nat) (fs : FS) (lt lc f : String) (d : Item)
    (m : List (String × Item))
    (htokt : tokenize lt = ["touch", f]) (htokc : tokenize lc = ["cat", f])
    (hd : getItemAtPath fs.root fs.currentPath = some d)
    (hm : d.children = some m)
    (habs : lookupEntry m f = none) :
    ∃ root',
      executeCommand t fs lt = some (CommandResult.mk "" false, FS.mk root' fs.currentPath) ∧
      executeCommand t' (FS.mk root' fs.currentPath) lc =
        some (CommandResult.mk "" false, FS.mk root' fs.currentPath) := by
  have hf : f ≠ "" := tokenize_ne_empty lt ["touch", f] htokt (by simp) f (by simp)
  have hdisp : executeCommand t fs lt = cmdTouch t fs ["touch", f] := by
    rw [executeCommand, htokt]
    simp [execToks, argAt, supportedCommands]
  have hcur : getCurrentDirectory fs = d := by
    simp [getCurrentDirectory, hd]
  have hmut : touchMut f t d =
      some (d.withChildrenModified
        (setEntry m f (Item.mk f ItemType.file (some "") none t t)) t) := by
    simp [touchMut, hm, habs]
  obtain ⟨root', hmod, hget⟩ :=
    modifyAt_of_getItemAtPath fs.currentPath fs.root d _ (touchMut f t) hd hmut
  refine ⟨root', ?_, ?_⟩
  · have harg : argAt ["touch", f] 1 = f := by simp [argAt]
    rw [hdisp]
    simp only [cmdTouch, harg, if_neg hf, hcur, hm, hmod]
    rfl
  · have := cmdCat_output t' (FS.mk root' fs.currentPath) lc f
      (d.withChildrenModified (setEntry m f (Item.mk f ItemType.file (some "") none t t)) t)
      (Item.mk f ItemType.file (some "") none t t)
      (setEntry m f (Item.mk f ItemType.file (some "") none t t))
      htokc hf hget (by simp) (lookup_setEntry_self m f _) rfl
    simpa using this

/-- Claim C8, part for `cp`: copying a file child with content `X` to a fresh
name and `cat`-ing the new name prints `X`. -/
theorem claim8_cp_cat (t t' : Nat) (fs : FS) (lcp lcat src dest X : String) (d s : Item)
    (m : List (String × Item))
    (htokp : tokenize lcp = ["cp", src, dest]) (htokc : tokenize lcat = ["cat", dest])
    (hd : getItemAtPath fs.root fs.currentPath = some d)
    (hm : d.children = some m)
    (hs : lookupEntry m src = some s)
    (hsty : s.type = ItemType.file)
    (hsc : s.content = some X)
    (habs : lookupEntry m dest = none) :
    ∃ root',
      executeCommand t fs lcp = some (CommandResult.mk "" false, FS.mk root' fs.currentPath) ∧
      executeCommand t' (FS.mk root' fs.currentPath) lcat =
        some (CommandResult.mk X false, FS.mk root' fs.currentPath) := by
  have hsrc : src ≠ "" := tokenize_ne_empty lcp ["cp", src, dest] htokp (by simp) src (by simp)
  have hdest : dest ≠ "" := tokenize_ne_empty lcp ["cp", src, dest] htokp (by simp) dest (by simp)
  have hdisp : executeCommand t fs lcp = cmdCp t fs ["cp", src, dest] := by
    rw [executeCommand, htokp]
    simp [execToks, argAt, supportedCommands]
  have hcur : getCurrentDirectory fs = d := by
    simp [getCurrentDirectory, hd]
  have hmut : cpMut src dest t d =
      some (d.withChildrenModified
        (setEntry m dest (Item.mk dest s.type s.content s.children t t)) t) := by
    simp [cpMut, hm, hs]
  obtain ⟨root', hmod, hget⟩ :=
    modifyAt_of_getItemAtPath fs.currentPath fs.root d _ (cpMut src dest t) hd hmut
  refine ⟨root', ?_, ?_⟩
  · have harg1 : argAt ["cp", src, dest] 1 = src := by simp [argAt]
    have harg2 : argAt ["cp", src, dest] 2 = dest := by simp [argAt]
    rw [hdisp]
    simp only [cmdCp, harg1, harg2, hcur, hm, hs, habs]
    rw [if_neg (by simp [hsrc, hdest]), if_neg (by simp), if_neg (by simp [hsty]), hmod]
    rfl
  · have := cmdCat_output t' (FS.mk root' fs.currentPath) lcat dest
      (d.withChildrenModified
        (setEntry m dest (Item.mk dest s.type s.content s.children t t)) t)
      (Item.mk dest s.type s.content s.children t t)
      (setEntry m dest (Item.mk dest s.type s.content s.children t t))
      htokc hdest hget (by simp) (lookup_setEntry_self m dest _) (by simp [hsty])
    simpa [hsc] using this

/-- Claim C8, part for `mv`: moving a file child with content `X` to a fresh
name and `cat`-ing the new name prints `X` (content preserved verbatim). -/
theorem claim8_mv_cat (t t' : Nat) (fs : FS) (lmv lcat src dest X : String) (d s : Item)
    (m : List (String × Item))
    (htokm : tokenize lmv = ["mv", src, dest]) (htokc : tokenize lcat = ["cat", dest])
    (hd : getItemAtPath fs.root fs.currentPath = some d)
    (hm : d.children = some m)
    (hs : lookupEntry m src = some s)
    (hsty : s.type = ItemType.file)
    (hsc : s.content = some X)
    (habs : lookupEntry m dest = none) :
    ∃ root',
      executeCommand t fs lmv = some (CommandResult.mk "" false, FS.mk root' fs.currentPath) ∧
      executeCommand t' (FS.mk root' fs.currentPath) lcat =
        some (CommandResult.mk X false, FS.mk root' fs.currentPath) := by
  have hsrc : src ≠ "" := tokenize_ne_empty lmv ["mv", src, dest] htokm (by simp) src (by simp)
  have hdest : dest ≠ "" := tokenize_ne_empty lmv ["mv", src, dest] htokm (by simp) dest (by simp)
  have hne : src ≠ dest := by
    intro hh
    rw [← hh, hs] at habs
    exact Option.noConfusion habs
  have hdisp : executeCommand t fs lmv = cmdMv t fs ["mv", src, dest] := by
    rw [executeCommand, htokm]
    simp [execToks, argAt, supportedCommands]
  have hcur : getCurrentDirectory fs = d := by
    simp [getCurrentDirectory, hd]
  have hmut : mvMut src dest t d =
      some (d.withChildrenModified
        (eraseEntry (setEntry m dest (s.withName dest)) src) t) := by
    simp [mvMut, hm, hs]
  obtain ⟨root', hmod, hget⟩ :=
    modifyAt_of_getItemAtPath fs.currentPath fs.root d _ (mvMut src dest t) hd hmut
  refine ⟨root', ?_, ?_⟩
  · have harg1 : argAt ["mv", src, dest] 1 = src := by simp [argAt]
    have harg2 : argAt ["mv", src, dest] 2 = dest := by simp [argAt]
    rw [hdisp]
    simp only [cmdMv, harg1, harg2, hcur, hm, hs, habs]
    rw [if_neg (by simp [hsrc, hdest]), if_neg (by simp), hmod]
    rfl
  · have hlk : lookupEntry (eraseEntry (setEntry m dest (s.withName dest)) src) dest =
        some (s.withName dest) := by
      rw [lookup_eraseEntry_ne _ _ _ (Ne.symm hne), lookup_setEntry_self]
    have := cmdCat_output t' (FS.mk root' fs.currentPath) lcat dest
      (d.withChildrenModified (eraseEntry (setEntry m dest (s.withName dest)) src) t)
      (s.withName dest)
      (eraseEntry (setEntry m dest (s.withName dest)) src)
      htokc hdest hget (by simp) hlk (by simp [hsty])
    simpa [hsc] using this

/-- Claim C8: on the seed filesystem, `touch f` then `cat f` prints `""`;
`cp welcome.txt w2` then `cat w2` prints the welcome text; and
`mv welcome.txt w3` then `cat w3` prints it too — instances of the three
universally proved round-trip lemmas above. -/
theorem claim8_round_trip :
    (∀ (t t' : Nat) (fs : FS) (lt lc f : String) (d : Item) (m : List (String × Item)),
      tokenize lt = ["touch", f] → tokenize lc = ["cat", f] →
      getItemAtPath fs.root fs.currentPath = some d → d.children = some m →
      lookupEntry m f = none →
      ∃ root',
        executeCommand t fs lt = some (CommandResult.mk "" false, FS.mk root' fs.currentPath) ∧
        executeCommand t' (FS.mk root' fs.currentPath) lc =
          some (CommandResult.mk "" false, FS.mk root' fs.currentPath)) ∧
    (∀ (t t' : Nat) (fs : FS) (lcp lcat src dest X : String) (d s : Item)
        (m : List (String × Item)),
      tokenize lcp = ["cp", src, dest] → tokenize lcat = ["cat", dest] →
      getItemAtPath fs.root fs.currentPath = some d → d.children = some m →
      lookupEntry m src = some s → s.type = ItemType.file → s.content = some X →
      lookupEntry m dest = none →
      ∃ root',
        executeCommand t fs lcp = some (CommandResult.mk "" false, FS.mk root' fs.currentPath) ∧
        executeCommand t' (FS.mk root' fs.currentPath) lcat =
          some (CommandResult.mk X false, FS.mk root' fs.currentPath)) ∧
    (∀ (t t' : Nat) (fs : FS) (lmv lcat src dest X : String) (d s : Item)
        (m : List (String × Item)),
      tokenize lmv = ["mv", src, dest] → tokenize lcat = ["cat", dest] →
      getItemAtPath fs.root fs.currentPath = some d → d.children = some m →
      lookupEntry m src = some s → s.type = ItemType.file → s.content = some X →
      lookupEntry m dest = none →
      ∃ root',
        executeCommand t fs lmv = some (CommandResult.mk "" false, FS.mk root' fs.currentPath) ∧
        executeCommand t' (FS.mk root' fs.currentPath) lcat =
          some (CommandResult.mk X false, FS.mk root' fs.currentPath)) :=
  ⟨claim8_touch_cat, claim8_cp_cat, claim8_mv_cat⟩

/-- Witness for C8: the three round trips executed on the seed filesystem
(`touch f; cat f`, `cp welcome.txt w2; cat w2`, `mv welcome.txt w3; cat w3`). -/
theorem claim8_round_trip_witness :
    (∃ root',
      executeCommand 3 (createInitialFileSystem 0) "touch f" =
        some (CommandResult.mk "" false,
          FS.mk root' (createInitialFileSystem 0).currentPath) ∧
      executeCommand 4 (FS.mk root' (createInitialFileSystem 0).currentPath) "cat f" =
        some (CommandResult.mk "" false,
          FS.mk root' (createInitialFileSystem 0).currentPath)) ∧
    (∃ root',
      executeCommand 3 (createInitialFileSystem 0) "cp welcome.txt w2" =
        some (CommandResult.mk "" false,
          FS.mk root' (createInitialFileSystem 0).currentPath) ∧
      executeCommand 4 (FS.mk root' (createInitialFileSystem 0).currentPath) "cat w2" =
        some (CommandResult.mk
          "Welcome to the Web CLI Terminal!\nType \"help\" to see available commands." false,
          FS.mk root' (createInitialFileSystem 0).currentPath)) ∧
    (∃ root',
      executeCommand 3 (createInitialFileSystem 0) "mv welcome.txt w3" =
        some (CommandResult.mk "" false,
          FS.mk root' (createInitialFileSystem 0).currentPath) ∧
      executeCommand 4 (FS.mk root' (createInitialFileSystem 0).currentPath) "cat w3" =
        some (CommandResult.mk
          "Welcome to the Web CLI Terminal!\nType \"help\" to see available commands." false,
          FS.mk root' (createInitialFileSystem 0).currentPath)) :=
  ⟨claim8_round_trip.1 3 4 (createInitialFileSystem 0) "touch f" "cat f" "f"
      (Item.mk "user" ItemType.directory none
        (some
          [("welcome.txt",
            Item.mk "welcome.txt" ItemType.file
              (some "Welcome to the Web CLI Terminal!\nType \"help\" to see available commands.")
              none 0 0),
           ("documents", Item.mk "documents" ItemType.directory none (some []) 0 0)])
        0 0)
      [("welcome.txt",
        Item.mk "welcome.txt" ItemType.file
          (some "Welcome to the Web CLI Terminal!\nType \"help\" to see available commands.")
          none 0 0),
       ("documents", Item.mk "documents" ItemType.directory none (some []) 0 0)]
      rfl rfl rfl rfl rfl,
    claim8_round_trip.2.1 3 4 (createInitialFileSystem 0) "cp welcome.txt w2" "cat w2"
      "welcome.txt" "w2"
      "Welcome to the Web CLI Terminal!\nType \"help\" to see available commands."
      (Item.mk "user" ItemType.directory none
        (some
          [("welcome.txt",
            Item.mk "welcome.txt" ItemType.file
              (some "Welcome to the Web CLI Terminal!\nType \"help\" to see available commands.")
              none 0 0),
           ("documents", Item.mk "documents" ItemType.directory none (some []) 0 0)])
        0 0)
      (Item.mk "welcome.txt" ItemType.file
        (some "Welcome to the Web CLI Terminal!\nType \"help\" to see available commands.")
        none 0 0)
      [("welcome.txt",
        Item.mk "welcome.txt" ItemType.file
          (some "Welcome to the Web CLI Terminal!\nType \"help\" to see available commands.")
          none 0 0),
       ("documents", Item.mk "documents" ItemType.directory none (some []) 0 0)]
      rfl rfl rfl rfl rfl rfl rfl rfl,
    claim8_round_trip.2.2 3 4 (createInitialFileSystem 0) "mv welcome.txt w3" "cat w3"
      "welcome.txt" "w3"
      "Welcome to the Web CLI Terminal!\nType \"help\" to see available commands."
      (Item.mk "user" ItemType.directory none
        (some
          [("welcome.txt",
            Item.mk "welcome.txt" ItemType.file
              (some "Welcome to the Web CLI Terminal!\nType \"help\" to see available commands.")
              none 0 0),
           ("documents", Item.mk "documents" ItemType.directory none (some []) 0 0)])
        0 0)
      (Item.mk "welcome.txt" ItemType.file
        (some "Welcome to the Web CLI Terminal!\nType \"help\" to see available commands.")
        none 0 0)
      [("welcome.txt",
        Item.mk "welcome.txt" ItemType.file
          (some "Welcome to the Web CLI Terminal!\nType \"help\" to see available commands.")
          none 0 0),
       ("documents", Item.mk "documents" ItemType.directory none (some []) 0 0)]
      rfl rfl rfl rfl rfl rfl rfl rfl⟩

/-! ## Claim C9: mv re-keys directories (even non-empty); cp refuses them -/

theorem lookup_none_not_mem (m : List (String × Item)) (k : String)
    (h : lookupEntry m k = none) : k ∉ m.map Prod.fst := by
  induction m with
  | nil => simp
  | cons hd tl ih =>
      obtain ⟨k₀, w⟩ := hd
      simp only [lookupEntry] at h
      by_cases h0 : k₀ = k
      · rw [if_pos h0] at h; exact Option.noConfusion h
      · rw [if_neg h0] at h
        simp only [List.map_cons, List.mem_cons]
        push_neg
        exact ⟨Ne.symm h0, ih h⟩

theorem setEntry_of_lookup_none (m : List (String × Item)) (k : String) (v : Item)
    (h : lookupEntry m k = none) : setEntry m k v = m ++ [(k, v)] := by
  induction m with
  | nil => simp [setEntry]
  | cons hd tl ih =>
      obtain ⟨k₀, w⟩ := hd
      simp only [lookupEntry] at h
      by_cases h0 : k₀ = k
      · rw [if_pos h0] at h; exact Option.noConfusion h
      · rw [if_neg h0] at h
        simp [setEntry, if_neg h0, ih h]

/-- Claim C9: when `src` names a direct-child *directory* of the current
directory (no emptiness requirement) and `dest` is fresh, `mv src dest`
succeeds: the node is re-keyed under `dest` with only its `name` field
updated — `type`, `content`, `children`, `created` and `modified` all
preserved — and the old key is gone.  `cp`, by contrast, refuses any
directory source with the `-r not specified` error, leaving the state
unchanged. -/
theorem claim9_mv_directory (now now' : Nat) (fs : FS) (lmv lcp src dest dest2 : String)
    (d s : Item) (m : List (String × Item))
    (htok : tokenize lmv = ["mv", src, dest])
    (htokp : tokenize lcp = ["cp", src, dest2])
    (hd : getItemAtPath fs.root fs.currentPath = some d)
    (hm : d.children = some m)
    (hs : lookupEntry m src = some s)
    (hsty : s.type = ItemType.directory)
    (habs : lookupEntry m dest = none)
    (habs2 : lookupEntry m dest2 = none)
    (hnd : (m.map Prod.fst).Nodup) :
    (∃ root',
      modifyAt fs.root fs.currentPath (mvMut src dest now) = some root' ∧
      executeCommand now fs lmv = some (CommandResult.mk "" false, FS.mk root' fs.currentPath) ∧
      getItemAtPath root' fs.currentPath =
        some (d.withChildrenModified (eraseEntry (setEntry m dest (s.withName dest)) src) now) ∧
      lookupEntry (eraseEntry (setEntry m dest (s.withName dest)) src) dest =
        some (s.withName dest) ∧
      lookupEntry (eraseEntry (setEntry m dest (s.withName dest)) src) src = none ∧
      (s.withName dest).name = dest ∧ (s.withName dest).type = s.type ∧
      (s.withName dest).content = s.content ∧ (s.withName dest).children = s.children ∧
      (s.withName dest).created = s.created ∧ (s.withName dest).modified = s.modified) ∧
    executeCommand now' fs lcp =
      some (CommandResult.mk
        ("cp: -r not specified; omitting directory '" ++ src ++ "'") true, fs) := by
  have hsrc : src ≠ "" := tokenize_ne_empty lmv ["mv", src, dest] htok (by simp) src (by simp)
  have hdest : dest ≠ "" := tokenize_ne_empty lmv ["mv", src, dest] htok (by simp) dest (by simp)
  have hdest2 : dest2 ≠ "" :=
    tokenize_ne_empty lcp ["cp", src, dest2] htokp (by simp) dest2 (by simp)
  have hne : src ≠ dest := by
    intro hh
    rw [← hh, hs] at habs
    exact Option.noConfusion habs
  have hcur : getCurrentDirectory fs = d := by
    simp [getCurrentDirectory, hd]
  constructor
  · have hmut : mvMut src dest now d =
        some (d.withChildrenModified
          (eraseEntry (setEntry m dest (s.withName dest)) src) now) := by
      simp [mvMut, hm, hs]
    obtain ⟨root', hmod, hget⟩ :=
      modifyAt_of_getItemAtPath fs.currentPath fs.root d _ (mvMut src dest now) hd hmut
    have hset : setEntry m dest (s.withName dest) = m ++ [(dest, s.withName dest)] :=
      setEntry_of_lookup_none m dest _ habs
    have hndset : ((setEntry m dest (s.withName dest)).map Prod.fst).Nodup := by
      rw [hset]
      simp only [List.map_append, List.map_cons, List.map_nil]
      rw [List.nodup_append]
      refine ⟨hnd, List.nodup_singleton dest, ?_⟩
      intro a ha hb
      simp only [List.mem_singleton] at hb
      subst hb
      exact lookup_none_not_mem m a habs ha
    refine ⟨root', hmod, ?_, hget, ?_, lookup_eraseEntry_self _ src hndset, by simp, by simp,
      by simp, by simp, by simp, by simp⟩
    · have hdisp : executeCommand now fs lmv = cmdMv now fs ["mv", src, dest] := by
        rw [executeCommand, htok]
        simp [execToks, argAt, supportedCommands]
      have harg1 : argAt ["mv", src, dest] 1 = src := by simp [argAt]
      have harg2 : argAt ["mv", src, dest] 2 = dest := by simp [argAt]
      rw [hdisp]
      simp only [cmdMv, harg1, harg2, hcur, hm, hs, habs]
      rw [if_neg (by simp [hsrc, hdest]), if_neg (by simp), hmod]
      rfl
    · rw [lookup_eraseEntry_ne _ _ _ (Ne.symm hne), lookup_setEntry_self]
  · have hdisp : executeCommand now' fs lcp = cmdCp now' fs ["cp", src, dest2] := by
      rw [executeCommand, htokp]
      simp [execToks, argAt, supportedCommands]
    have harg1 : argAt ["cp", src, dest2] 1 = src := by simp [argAt]
    have harg2 : argAt ["cp", src, dest2] 2 = dest2 := by simp [argAt]
    rw [hdisp]
    simp only [cmdCp, harg1, harg2, hcur, hm, hs, habs2]
    rw [if_neg (by simp [hsrc, hdest2]), if_neg (by simp), if_pos hsty]
    rfl

/-- Witness for C9: with the cursor at `/home`, `mv user user2` re-keys the
*non-empty* directory `user`, while `cp user u2` is refused. -/
theorem claim9_mv_directory_witness :
    (∃ root',
      modifyAt (FS.mk (createInitialFileSystem 0).root ["home"]).root
          (FS.mk (createInitialFileSystem 0).root ["home"]).currentPath
          (mvMut "user" "user2" 9) = some root' ∧
      executeCommand 9 (FS.mk (createInitialFileSystem 0).root ["home"]) "mv user user2" =
        some (CommandResult.mk "" false,
          FS.mk root' (FS.mk (createInitialFileSystem 0).root ["home"]).currentPath) ∧
      getItemAtPath root' (FS.mk (createInitialFileSystem 0).root ["home"]).currentPath =
        some ((Item.mk "home" ItemType.directory none
            (some
              [("user",
                Item.mk "user" ItemType.directory none
                  (some
                    [("welcome.txt",
                      Item.mk "welcome.txt" ItemType.file
                        (some "Welcome to the Web CLI Terminal!\nType \"help\" to see available commands.")
                        none 0 0),
                     ("documents",
                      Item.mk "documents" ItemType.directory none (some []) 0 0)])
                  0 0)])
            0 0).withChildrenModified
          (eraseEntry
            (setEntry
              [("user",
                Item.mk "user" ItemType.directory none
                  (some
                    [("welcome.txt",
                      Item.mk "welcome.txt" ItemType.file
                        (some "Welcome to the Web CLI Terminal!\nType \"help\" to see available commands.")
                        none 0 0),
                     ("documents",
                      Item.mk "documents" ItemType.directory none (some []) 0 0)])
                  0 0)]
              "user2"
              ((Item.mk "user" ItemType.directory none
                (some
                  [("welcome.txt",
                    Item.mk "welcome.txt" ItemType.file
                      (some "Welcome to the Web CLI Terminal!\nType \"help\" to see available commands.")
                      none 0 0),
                   ("documents",
                    Item.mk "documents" ItemType.directory none (some []) 0 0)])
                0 0).withName "user2"))
            "user") 9) ∧
      lookupEntry
          (eraseEntry
            (setEntry
              [("user",
                Item.mk "user" ItemType.directory none
                  (some
                    [("welcome.txt",
                      Item.mk "welcome.txt" ItemType.file
                        (some "Welcome to the Web CLI Terminal!\nType \"help\" to see available commands.")
                        none 0 0),
                     ("documents",
                      Item.mk "documents" ItemType.directory none (some []) 0 0)])
                  0 0)]
              "user2"
              ((Item.mk "user" ItemType.directory none
                (some
                  [("welcome.txt",
                    Item.mk "welcome.txt" ItemType.file
                      (some "Welcome to the Web CLI Terminal!\nType \"help\" to see available commands.")
                      none 0 0),
                   ("documents",
                    Item.mk "documents" ItemType.directory none (some []) 0 0)])
                0 0).withName "user2"))
            "user") "user2" =
        some ((Item.mk "user" ItemType.directory none
            (some
              [("welcome.txt",
                Item.mk "welcome.txt" ItemType.file
                  (some "Welcome to the Web CLI Terminal!\nType \"help\" to see available commands.")
                  none 0 0),
               ("documents",
                Item.mk "documents" ItemType.directory none (some []) 0 0)])
            0 0).withName "user2") ∧
      lookupEntry
          (eraseEntry
            (setEntry
              [("user",
                Item.mk "user" ItemType.directory none
                  (some
                    [("welcome.txt",
                      Item.mk "welcome.txt" ItemType.file
                        (some "Welcome to the Web CLI Terminal!\nType \"help\" to see available commands.")
                        none 0 0),
                     ("documents",
                      Item.mk "documents" ItemType.directory none (some []) 0 0)])
                  0 0)]
              "user2"
              ((Item.mk "user" ItemType.directory none
                (some
                  [("welcome.txt",
                    Item.mk "welcome.txt" ItemType.file
                      (some "Welcome to the Web CLI Terminal!\nType \"help\" to see available commands.")
                      none 0 0),
                   ("documents",
                    Item.mk "documents" ItemType.directory none (some []) 0 0)])
                0 0).withName "user2"))
            "user") "user" = none ∧
      ((Item.mk "user" ItemType.directory none
          (some
            [("welcome.txt",
              Item.mk "welcome.txt" ItemType.file
                (some "Welcome to the Web CLI Terminal!\nType \"help\" to see available commands.")
                none 0 0),
             ("documents",
              Item.mk "documents" ItemType.directory none (some []) 0 0)])
          0 0).withName "user2").name = "user2" ∧
      ((Item.mk "user" ItemType.directory none
          (some
            [("welcome.txt",
              Item.mk "welcome.txt" ItemType.file
                (some "Welcome to the Web CLI Terminal!\nType \"help\" to see available commands.")
                none 0 0),
             ("documents",
              Item.mk "documents" ItemType.directory none (some []) 0 0)])
          0 0).withName "user2").type =
        (Item.mk "user" ItemType.directory none
          (some
            [("welcome.txt",
              Item.mk "welcome.txt" ItemType.file
                (some "Welcome to the Web CLI Terminal!\nType \"help\" to see available commands.")
                none 0 0),
             ("documents",
              Item.mk "documents" ItemType.directory none (some []) 0 0)])
          0 0).type ∧
      ((Item.mk "user" ItemType.directory none
          (some
            [("welcome.txt",
              Item.mk "welcome.txt" ItemType.file
                (some "Welcome to the Web CLI Terminal!\nType \"help\" to see available commands.")
                none 0 0),
             ("documents",
              Item.mk "documents" ItemType.directory none (some []) 0 0)])
          0 0).withName "user2").content =
        (Item.mk "user" ItemType.directory none
          (some
            [("welcome.txt",
              Item.mk "welcome.txt" ItemType.file
                (some "Welcome to the Web CLI Terminal!\nType \"help\" to see available commands.")
                none 0 0),
             ("documents",
              Item.mk "documents" ItemType.directory none (some []) 0 0)])
          0 0).content ∧
      ((Item.mk "user" ItemType.directory none
          (some
            [("welcome.txt",
              Item.mk "welcome.txt" ItemType.file
                (some "Welcome to the Web CLI Terminal!\nType \"help\" to see available commands.")
                none 0 0),
             ("documents",
              Item.mk "documents" ItemType.directory none (some []) 0 0)])
          0 0).withName "user2").children =
        (Item.mk "user" ItemType.directory none
          (some
            [("welcome.txt",
              Item.mk "welcome.txt" ItemType.file
                (some "Welcome to the Web CLI Terminal!\nType \"help\" to see available commands.")
                none 0 0),
             ("documents",
              Item.mk "documents" ItemType.directory none (some []) 0 0)])
          0 0).children ∧
      ((Item.mk "user" ItemType.directory none
          (some
            [("welcome.txt",
              Item.mk "welcome.txt" ItemType.file
                (some "Welcome to the Web CLI Terminal!\nType \"help\" to see available commands.")
                none 0 0),
             ("documents",
              Item.mk "documents" ItemType.directory none (some []) 0 0)])
          0 0).withName "user2").created =
        (Item.mk "user" ItemType.directory none
          (some
            [("welcome.txt",
              Item.mk "welcome.txt" ItemType.file
                (some "Welcome to the Web CLI Terminal!\nType \"help\" to see available commands.")
                none 0 0),
             ("documents",
              Item.mk "documents" ItemType.directory none (some []) 0 0)])
          0 0).created ∧
      ((Item.mk "user" ItemType.directory none
          (some
            [("welcome.txt",
              Item.mk "welcome.txt" ItemType.file
                (some "Welcome to the Web CLI Terminal!\nType \"help\" to see available commands.")
                none 0 0),
             ("documents",
              Item.mk "documents" ItemType.directory none (some []) 0 0)])
          0 0).withName "user2").modified =
        (Item.mk "user" ItemType.directory none
          (some
            [("welcome.txt",
              Item.mk "welcome.txt" ItemType.file
                (some "Welcome to the Web CLI Terminal!\nType \"help\" to see available commands.")
                none 0 0),
             ("documents",
              Item.mk "documents" ItemType.directory none (some []) 0 0)])
          0 0).modified) ∧
    executeCommand 11 (FS.mk (createInitialFileSystem 0).root ["home"]) "cp user u2" =
      some (CommandResult.mk ("cp: -r not specified; omitting directory '" ++ "user" ++ "'") true,
        FS.mk (createInitialFileSystem 0).root ["home"]) :=
  claim9_mv_directory 9 11 (FS.mk (createInitialFileSystem 0).root ["home"])
    "mv user user2" "cp user u2" "user" "user2" "u2"
    (Item.mk "home" ItemType.directory none
      (some
        [("user",
          Item.mk "user" ItemType.directory none
            (some
              [("welcome.txt",
                Item.mk "welcome.txt" ItemType.file
                  (some "Welcome to the Web CLI Terminal!\nType \"help\" to see available commands.")
                  none 0 0),
               ("documents",
                Item.mk "documents" ItemType.directory none (some []) 0 0)])
            0 0)])
      0 0)
    (Item.mk "user" ItemType.directory none
      (some
        [("welcome.txt",
          Item.mk "welcome.txt" ItemType.file
            (some "Welcome to the Web CLI Terminal!\nType \"help\" to see available commands.")
            none 0 0),
         ("documents",
          Item.mk "documents" ItemType.directory none (some []) 0 0)])
      0 0)
    [("user",
      Item.mk "user" ItemType.directory none
        (some
          [("welcome.txt",
            Item.mk "welcome.txt" ItemType.file
              (some "Welcome to the Web CLI Terminal!\nType \"help\" to see available commands.")
              none 0 0),
           ("documents",
            Item.mk "documents" ItemType.directory none (some []) 0 0)])
        0 0)]
    rfl rfl rfl rfl rfl rfl rfl rfl (by decide)

/-! ## Claim C3: the ls ordering -/

theorem cmpChar_swap (a b : Char) : cmpChar b a = -cmpChar a b := by
  unfold cmpChar
  split_ifs <;> omega

theorem cmpPrimary_swap : ∀ a b : List Char, cmpPrimary b a = -cmpPrimary a b := by
  intro a
  induction a with
  | nil => intro b; cases b <;> simp [cmpPrimary]
  | cons x xs ih =>
      intro b
      cases b with
      | nil => simp [cmpPrimary]
      | cons y ys =>
          simp only [cmpPrimary]
          rw [cmpChar_swap]
          by_cases hc : cmpChar (foldChar x) (foldChar y) = 0
          · rw [hc]
            simp only [neg_zero, if_pos rfl]
            exact ih ys
          · rw [if_neg hc, if_neg (by omega)]

theorem cmpCase_swap : ∀ a b : List Char, cmpCase b a = -cmpCase a b := by
  intro a
  induction a with
  | nil => intro b; cases b <;> simp [cmpCase]
  | cons x xs ih =>
      intro b
      cases b with
      | nil => simp [cmpCase]
      | cons y ys =>
          simp only [cmpCase]
          by_cases hc : (caseKey x : Int) - caseKey y = 0
          · rw [if_pos (by omega), if_pos hc]
            exact ih ys
          · rw [if_neg (by omega), if_neg hc]
            omega

theorem localeCompare_swap (a b : String) : localeCompare b a = -localeCompare a b := by
  unfold localeCompare
  rw [cmpPrimary_swap]
  by_cases hp : cmpPrimary a.data b.data = 0
  · rw [hp]
    simp only [neg_zero, if_pos rfl]
    exact cmpCase_swap a.data b.data
  · rw [if_neg hp, if_neg (by omega)]

theorem itemLe_total (a b : Item) : itemLe a b = true ∨ itemLe b a = true := by
  unfold itemLe cmpItems
  by_cases hty : a.type = b.type
  · rw [if_neg (by simp [hty]), if_neg (by simp [hty.symm])]
    rw [localeCompare_swap a.name b.name]
    simp only [decide_eq_true_eq]
    omega
  · cases ha : a.type <;> cases hb : b.type <;> simp_all

theorem insertStable_head (le : Item → Item → Bool) (x : Item) (l : List Item) :
    (insertStable le x l).head? = some x ∨ (insertStable le x l).head? = l.head? := by
  cases l with
  | nil => simp [insertStable]
  | cons y ys =>
      by_cases h : le x y = true
      · simp [insertStable, h]
      · simp [insertStable, h]

theorem chain'_insertStable (le : Item → Item → Bool)
    (htot : ∀ a b, le a b = true ∨ le b a = true) (x : Item) :
    ∀ l, List.Chain' (fun a b => le a b = true) l →
      List.Chain' (fun a b => le a b = true) (insertStable le x l) := by
  intro l
  induction l with
  | nil => intro _; simp [insertStable]
  | cons y ys ih =>
      intro h
      unfold insertStable
      by_cases hxy : le x y = true
      · rw [if_pos hxy]
        exact List.Chain'.cons hxy h
      · rw [if_neg hxy]
        have hyx : le y x = true := (htot x y).resolve_left hxy
        obtain ⟨hhd, htl⟩ := List.chain'_cons'.1 h
        refine List.chain'_cons'.2 ⟨?_, ih htl⟩
        intro z hz
        rcases insertStable_head le x ys with hh | hh
        · rw [hh] at hz
          simp only [Option.mem_def, Option.some.injEq] at hz
          rw [hz] at hyx
          exact hyx
        · rw [hh] at hz
          exact hhd z hz

theorem chain'_sortStable (le : Item → Item → Bool)
    (htot : ∀ a b, le a b = true ∨ le b a = true) :
    ∀ l, List.Chain' (fun a b => le a b = true) (sortStable le l) := by
  intro l
  induction l with
  | nil => simp [sortStable]
  | cons x xs ih => exact chain'_insertStable le htot x (sortStable le xs) ih

/-- Characterization of the source's comparator: an item precedes another when
it is a directory and the other a file, or both have the same kind and the
`localeCompare` of the names is non-positive. -/
theorem itemLe_iff (a b : Item) :
    itemLe a b = true ↔
      ((a.type = ItemType.directory ∧ b.type = ItemType.file) ∨
        (a.type = b.type ∧ localeCompare a.name b.name ≤ 0)) := by
  unfold itemLe cmpItems
  by_cases hty : a.type = b.type
  · rw [if_neg (by simp [hty])]
    simp only [decide_eq_true_eq]
    constructor
    · intro h
      exact Or.inr ⟨hty, h⟩
    · intro h
      rcases h with ⟨h1, h2⟩ | ⟨_, h⟩
      · rw [h1] at hty
        rw [h2] at hty
        exact ItemType.noConfusion hty
      · exact h
  · rw [if_pos (by simp [hty])]
    cases ha : a.type <;> cases hb : b.type <;> simp_all <;> decide

/-- Claim C3, amended: for every directory listed by `ls`, the output is the
rendering of the children sorted with directories before files and, within
each kind, by the locale-aware `localeCompare` comparison (case-insensitive at
the primary level, so `"a"` sorts before `"B"`).  That order agrees with plain
lexicographic comparison on names of uniform case but not in general (see the
counterexample). -/
theorem claim3_ls_order (now : Nat) (fs : FS) (input : String) (d : Item)
    (m : List (String × Item))
    (htok : tokenize input = ["ls"])
    (hd : getItemAtPath fs.root fs.currentPath = some d)
    (hty : d.type = ItemType.directory)
    (hm : d.children = some m)
    (hne : m.length ≠ 0) :
    executeCommand now fs input =
      some (CommandResult.mk (joinWith "\n" ((lsSortedItems d).map renderLsItem)) false, fs) ∧
    List.Chain'
      (fun a b =>
        (a.type = ItemType.directory ∧ b.type = ItemType.file) ∨
        (a.type = b.type ∧ localeCompare a.name b.name ≤ 0))
      (lsSortedItems d) := by
  constructor
  · have hdisp : executeCommand now fs input = cmdLs fs ["ls"] := by
      rw [executeCommand, htok]
      simp [execToks, argAt, supportedCommands]
    have harg : argAt ["ls"] 1 = "" := by simp [argAt]
    rw [hdisp]
    simp only [cmdLs, harg]
    rw [if_neg (show ¬ (("" : String) ≠ "") by simp)]
    simp only [hd]
    rw [if_neg (show ¬ (d.type ≠ ItemType.directory) by simp [hty])]
    simp only [hm]
    rw [if_neg hne]
    rfl
  · exact List.Chain'.imp (fun a b h => (itemLe_iff a b).1 h)
      (chain'_sortStable itemLe itemLe_total _)

/-- Plain lexicographic (code-point) comparison of strings, stated from the
claim's words ("plain lexicographic string comparison"). -/
def plainLexLt : List Char → List Char → Bool
  | [], [] => false
  | [], _ :: _ => true
  | _ :: _, [] => false
  | a :: as, b :: bs =>
      if a.toNat < b.toNat then true
      else if b.toNat < a.toNat then false
      else plainLexLt as bs

/-- The listing order the claim asserts: directories before files, names
compared by plain lexicographic string comparison.  Stated from the claim's
words, to be compared against the code's order. -/
def specPlainLsLe (a b : Item) : Bool :=
  (a.type = ItemType.directory && b.type = ItemType.file) ||
  (a.type = b.type && !(plainLexLt b.name.data a.name.data))

/-- Adjacent sortedness under the claim's order. -/
def specPlainLsSorted : List Item → Bool
  | [] => true
  | [_] => true
  | a :: b :: rest => specPlainLsLe a b && specPlainLsSorted (b :: rest)

/-- A directory holding two files named `B` and `a`. -/
def mixedCaseDir : Item :=
  Item.mk "" ItemType.directory none
    (some [("B", Item.mk "B" ItemType.file (some "") none 0 0),
           ("a", Item.mk "a" ItemType.file (some "") none 0 0)]) 0 0

/-- Counterexample to C3 as stated: with children `B` and `a`, the code lists
`a` before `B` (`localeCompare` is case-insensitive at its primary level),
which is not sorted under plain lexicographic comparison (`"B" < "a"` by code
point); the plain-lexicographic order would be `B` before `a`. -/
theorem claim3_counterexample :
    (executeCommand 0 (FS.mk mixedCaseDir []) "ls").map (fun p => p.1.output) =
      some (joinWith "\n" ((lsSortedItems mixedCaseDir).map renderLsItem)) ∧
    (lsSortedItems mixedCaseDir).map Item.name = ["a", "B"] ∧
    specPlainLsSorted (lsSortedItems mixedCaseDir) = false ∧
    specPlainLsSorted
      [Item.mk "B" ItemType.file (some "") none 0 0,
       Item.mk "a" ItemType.file (some "") none 0 0] = true := by
  refine ⟨rfl, rfl, ?_, ?_⟩ <;> decide

/-- Witness for C3 (amended): `ls` of `/home/user` on the seed filesystem. -/
theorem claim3_ls_order_witness :
    (executeCommand 0 (createInitialFileSystem 0) "ls" =
      some (CommandResult.mk
        (joinWith "\n" ((lsSortedItems
          (Item.mk "user" ItemType.directory none
            (some
              [("welcome.txt",
                Item.mk "welcome.txt" ItemType.file
                  (some "Welcome to the Web CLI Terminal!\nType \"help\" to see available commands.")
                  none 0 0),
               ("documents",
                Item.mk "documents" ItemType.directory none (some []) 0 0)])
            0 0)).map renderLsItem)) false, createInitialFileSystem 0) ∧
    List.Chain'
      (fun a b =>
        (a.type = ItemType.directory ∧ b.type = ItemType.file) ∨
        (a.type = b.type ∧ localeCompare a.name b.name ≤ 0))
      (lsSortedItems
        (Item.mk "user" ItemType.directory none
          (some
            [("welcome.txt",
              Item.mk "welcome.txt" ItemType.file
                (some "Welcome to the Web CLI Terminal!\nType \"help\" to see available commands.")
                none 0 0),
             ("documents",
              Item.mk "documents" ItemType.directory none (some []) 0 0)])
          0 0))) :=
  claim3_ls_order 0 (createInitialFileSystem 0) "ls"
    (Item.mk "user" ItemType.directory none
      (some
        [("welcome.txt",
          Item.mk "welcome.txt" ItemType.file
            (some "Welcome to the Web CLI Terminal!\nType \"help\" to see available commands.")
            none 0 0),
         ("documents",
          Item.mk "documents" ItemType.directory none (some []) 0 0)])
      0 0)
    [("welcome.txt",
      Item.mk "welcome.txt" ItemType.file
        (some "Welcome to the Web CLI Terminal!\nType \"help\" to see available commands.")
        none 0 0),
     ("documents",
      Item.mk "documents" ItemType.directory none (some []) 0 0)]
    rfl rfl rfl rfl (by decide)

end WebCli
